import Mathlib

set_option maxHeartbeats 1000000

/-!
# Verification of the ISO-8601 parser (`dateutil/parser/isoparser.py`)

This file gives a shallow embedding of the `Isoparser` class and of the
pieces of the Python standard library it relies on (`int()` conversion of
strings, `datetime.date` / `datetime.time` / `datetime.datetime`
construction and validation, `date.isocalendar`, and date ± timedelta
arithmetic), and proves properties of the parser against it.

Python strings are modelled as `List Char`; string indexing `s[i]` is the
partial operation `pyGet` (raising `IndexError` out of range) while slices
`s[a:b]` are the total `(s.drop a).take (b - a)`.  Fallible operations
return `Except PyErr`.
-/

/-- The Python exception kinds that can escape from the parsing routines:
`ValueError` (used both by explicit `raise` statements and by `int()`/
constructor validation), `IndexError` from out-of-range string indexing,
and `OverflowError` from date arithmetic leaving the supported range. -/
inductive PyErr where
  | valueError (msg : String)
  | indexError
  | overflowError
deriving DecidableEq

deriving instance DecidableEq for Except

/-- ASCII whitespace stripped by Python's `int()` conversion. -/
def isPySpace (c : Char) : Bool :=
  c == ' ' || c == '\t' || c == '\n' || c == '\r' || c == '\x0b' || c == '\x0c'

/-- ASCII decimal digit. -/
def isDig (c : Char) : Bool :=
  48 ≤ c.toNat && c.toNat ≤ 57

/-- Numeric value of a string of decimal digits (most significant first). -/
def digitsVal (ds : List Char) : Nat :=
  ds.foldl (fun a c => a * 10 + (c.toNat - 48)) 0

/-- Model of `int()` applied to a string with no sign and no surrounding whitespace:
requires a nonempty all-digit string. -/
def pyIntDigits (ds : List Char) : Except PyErr Int :=
  if ds ≠ [] ∧ ds.all isDig then .ok ((digitsVal ds : Nat) : Int)
  else .error (.valueError "invalid literal for int() with base 10")

/-- Strip leading and trailing whitespace, as `int()` does. -/
def pyStrip (s : List Char) : List Char :=
  ((s.dropWhile isPySpace).reverse.dropWhile isPySpace).reverse

/-- Model of Python `int(s)` on a string: optional surrounding whitespace,
optional single sign, then decimal digits. -/
def pyInt (s : List Char) : Except PyErr Int :=
  match pyStrip s with
  | [] => .error (.valueError "invalid literal for int() with base 10")
  | c :: ds =>
    if c = '+' then pyIntDigits ds
    else if c = '-' then (pyIntDigits ds).map (fun n => -n)
    else pyIntDigits (c :: ds)

/-- Python string indexing `s[i]` for a nonnegative index: `IndexError`
when out of range. -/
def pyGet (s : List Char) (i : Nat) : Except PyErr Char :=
  match s.drop i with
  | [] => .error .indexError
  | c :: _ => .ok c

/-- Total variant of indexing used where the source guards the access. -/
def listGet? (s : List Char) (i : Nat) : Option Char :=
  (s.drop i).head?

/-! ## Proleptic Gregorian calendar arithmetic (model of `datetime.date`) -/

/-- Model of `calendar.isleap` for a nonnegative year. -/
def isLeapYear (y : Nat) : Bool :=
  y % 4 == 0 && (y % 100 != 0 || y % 400 == 0)

/-- Model of `calendar.isleap` on Python integers (Python `%` is `Int.emod`). -/
def isLeapYearInt (y : Int) : Bool :=
  y % 4 == 0 && (y % 100 != 0 || y % 400 == 0)

/-- Number of days in month `m` of year `y` (`0` outside `1..12`). -/
def daysInMonth (y m : Nat) : Nat :=
  match m with
  | 1 => 31
  | 2 => if isLeapYear y then 29 else 28
  | 3 => 31
  | 4 => 30
  | 5 => 31
  | 6 => 30
  | 7 => 31
  | 8 => 31
  | 9 => 30
  | 10 => 31
  | 11 => 30
  | 12 => 31
  | _ => 0

/-- Number of days of year `y` strictly before month `m` (for `m` in
`1..13`; `m = 13` gives the length of the year). -/
def daysBeforeMonth (y m : Nat) : Nat :=
  (match m with
   | 1 => 0
   | 2 => 31
   | 3 => 59
   | 4 => 90
   | 5 => 120
   | 6 => 151
   | 7 => 181
   | 8 => 212
   | 9 => 243
   | 10 => 273
   | 11 => 304
   | 12 => 334
   | _ => 365) + (if 2 < m ∧ isLeapYear y then 1 else 0)

/-- Number of days in year `y`. -/
def daysInYear (y : Nat) : Nat :=
  if isLeapYear y then 366 else 365

/-- Number of days before January 1 of year `y` in the proleptic Gregorian
calendar (`datetime`'s `_days_before_year`). -/
def daysBeforeYear (y : Nat) : Nat :=
  365 * (y - 1) + (y - 1) / 4 - (y - 1) / 100 + (y - 1) / 400

/-- Proleptic Gregorian ordinal of a date (`date.toordinal`;
January 1 of year 1 is ordinal 1). -/
def toOrdinal (y m d : Nat) : Nat :=
  daysBeforeYear y + daysBeforeMonth y m + d

/-- The largest ordinal `datetime.date` supports: `9999-12-31`. -/
def maxOrdinal : Nat := 3652059

/-- A `datetime.date` value. The constructor `mkDate` enforces validity. -/
structure Date where
  year : Nat
  month : Nat
  day : Nat
deriving DecidableEq

def Date.toOrd (dt : Date) : Nat := toOrdinal dt.year dt.month dt.day

/-- Linear search for the year containing a 0-based day offset `n`
(counting from January 1 of year `y`). Returns the year and the remaining
0-based day of year. -/
def yearFromAux : Nat → Nat → Nat → Nat × Nat
  | 0, y, n => (y, n)
  | fuel + 1, y, n =>
    if n < daysInYear y then (y, n) else yearFromAux fuel (y + 1) (n - daysInYear y)

/-- Linear search for the month containing a 0-based day offset `n` of
year `y` (starting at month `m`). Returns the month and the remaining
0-based day of month. -/
def monthFromAux : Nat → Nat → Nat → Nat → Nat × Nat
  | 0, _, m, n => (m, n)
  | fuel + 1, y, m, n =>
    if n < daysInMonth y m then (m, n) else monthFromAux fuel y (m + 1) (n - daysInMonth y m)

/-- Inverse of `toOrdinal` (`date.fromordinal`). -/
def fromOrdinal (o : Nat) : Date :=
  let yn := yearFromAux 10000 1 (o - 1)
  let md := monthFromAux 12 yn.1 1 yn.2
  ⟨yn.1, md.1, md.2 + 1⟩

/-- The validating `datetime.date(year, month, day)` constructor. -/
def mkDate (y m d : Int) : Except PyErr Date :=
  if 1 ≤ y ∧ y ≤ 9999 ∧ 1 ≤ m ∧ m ≤ 12 ∧ 1 ≤ d ∧ d ≤ (daysInMonth y.toNat m.toNat : Int) then
    .ok ⟨y.toNat, m.toNat, d.toNat⟩
  else
    .error (.valueError "invalid date")

/-- Model of `date ± timedelta(days=k)`: raises `OverflowError` when the result
leaves the supported range, as `datetime.date` arithmetic does. -/
def dateAddDays (dt : Date) (k : Int) : Except PyErr Date :=
  let o : Int := (dt.toOrd : Int) + k
  if 1 ≤ o ∧ o ≤ (maxOrdinal : Int) then .ok (fromOrdinal o.toNat)
  else .error .overflowError

/-- Ordinal of the Monday starting ISO week 1 of year `y`
(CPython's `_isoweek1monday` helper for `date.isocalendar`). -/
def isoweek1monday (y : Nat) : Nat :=
  let firstday := toOrdinal y 1 1
  let firstweekday := (firstday + 6) % 7
  let w1 := firstday - firstweekday
  if 3 < firstweekday then w1 + 7 else w1

/-- Model of `datetime.date.isocalendar`: the (ISO year, ISO week,
ISO weekday) triple of a calendar date. The `today < w1` test realizes
CPython's `week < 0` branch of the floor divmod; the `52 ≤ week` branch
keeps the day component, exactly as CPython does. -/
def isocalendar (y m d : Nat) : Nat × Nat × Nat :=
  let today := toOrdinal y m d
  let w1 := isoweek1monday y
  if today < w1 then
    let w1p := isoweek1monday (y - 1)
    (y - 1, (today - w1p) / 7 + 1, (today - w1p) % 7 + 1)
  else
    let week := (today - w1) / 7
    if 52 ≤ week ∧ isoweek1monday (y + 1) ≤ today then
      (y + 1, 1, (today - w1) % 7 + 1)
    else
      (y, week + 1, (today - w1) % 7 + 1)

def Date.isocal (dt : Date) : Nat × Nat × Nat :=
  isocalendar dt.year dt.month dt.day

/-! ## Time zone and time values -/

/-- The timezone values produced by the parser: the `tz.tzutc()` singleton
or a `tz.tzoffset` fixed offset, measured in minutes. -/
inductive Tz where
  | utc
  | offset (minutes : Int)
deriving DecidableEq

/-- The mutable `components` list of `_parse_isotime`:
`[hour, minute, second, microsecond, tzinfo]`. -/
structure TimeComps where
  hour : Int
  minute : Int
  second : Int
  microsecond : Int
  tzinfo : Option Tz
deriving DecidableEq

/-- The assignment `components[i] = v` for the numeric slots of the time component list. -/
def TimeComps.setComp (c : TimeComps) (i : Nat) (v : Int) : TimeComps :=
  match i with
  | 0 => { c with hour := v }
  | 1 => { c with minute := v }
  | 2 => { c with second := v }
  | 3 => { c with microsecond := v }
  | _ => c

/-- A validated `datetime.time` value. -/
structure Time where
  hour : Nat
  minute : Nat
  second : Nat
  microsecond : Nat
  tzinfo : Option Tz
deriving DecidableEq

/-- The validating `datetime.time(*components)` constructor. -/
def mkTime (c : TimeComps) : Except PyErr Time :=
  if 0 ≤ c.hour ∧ c.hour ≤ 23 ∧ 0 ≤ c.minute ∧ c.minute ≤ 59 ∧
     0 ≤ c.second ∧ c.second ≤ 59 ∧ 0 ≤ c.microsecond ∧ c.microsecond ≤ 999999 then
    .ok ⟨c.hour.toNat, c.minute.toNat, c.second.toNat, c.microsecond.toNat, c.tzinfo⟩
  else
    .error (.valueError "invalid time")

/-- A validated `datetime.datetime` value. -/
structure DateTime where
  year : Nat
  month : Nat
  day : Nat
  hour : Nat
  minute : Nat
  second : Nat
  microsecond : Nat
  tzinfo : Option Tz
deriving DecidableEq

/-- The validating `datetime.datetime(*components)` constructor. -/
def mkDateTime (y mo d : Int) (c : TimeComps) : Except PyErr DateTime := do
  let dt ← mkDate y mo d
  let t ← mkTime c
  .ok ⟨dt.year, dt.month, dt.day, t.hour, t.minute, t.second, t.microsecond, t.tzinfo⟩

/-! ## The `Isoparser` class -/

/-- The configuration held by an `Isoparser` instance: the datetime
separator character and the default year (validated to `[1, 9999]` at
construction). -/
structure Isoparser where
  sep : Char
  default_year : Nat
deriving DecidableEq

/-- Embedding of `Isoparser.parse_tzstr` (lines 148-195 of the source). -/
def Isoparser.parse_tzstr (tzstr : List Char) (zero_as_utc : Bool) : Except PyErr Tz :=
  if tzstr = ['Z'] then .ok .utc
  else if ¬(tzstr.length = 3 ∨ tzstr.length = 5 ∨ tzstr.length = 6) then
    .error (.valueError "Time zone offset must be 1, 3, 5 or 6 characters")
  else do
    let c0 ← pyGet tzstr 0
    let mult : Int ←
      if c0 = '-' then pure (-1)
      else if c0 = '+' then pure 1
      else .error (.valueError "Time zone offset requires sign")
    let hours ← pyInt ((tzstr.drop 1).take 2)
    let minutes ←
      if tzstr.length = 3 then pure (0 : Int)
      else do
        let c3 ← pyGet tzstr 3
        pyInt (tzstr.drop (if c3 = ':' then 4 else 3))
    if zero_as_utc ∧ hours = 0 ∧ minutes = 0 then .ok .utc
    else if 59 < minutes then .error (.valueError "Invalid minutes in time zone offset")
    else if 23 < hours then .error (.valueError "Invalid hours in time zone offset")
    else .ok (.offset (mult * (hours * 60 + minutes)))

/-- One pass of the `while` loop of `_parse_isotime` (lines 339-365).
`cur` is the component index about to be processed (the source's `comp`
after its increment at the top of the loop); the loop guard `comp < 5`
on the pre-increment value is `cur ≤ 5` here. The fuel argument only
bounds the recursion and is never exhausted when started at 6. -/
def Isoparser.isotimeGo (timestr : List Char) (len_str : Nat) (has_sep : Bool) :
    Nat → Nat → Nat → TimeComps → Except PyErr (TimeComps × Nat)
  | 0, _, pos, comps => .ok (comps, pos)
  | fuel + 1, cur, pos, comps =>
    if pos < len_str ∧ cur ≤ 5 then do
      let ch ← pyGet timestr pos
      if ch = '-' ∨ ch = '+' ∨ ch = 'Z' then do
        let tzv ← Isoparser.parse_tzstr (timestr.drop pos) true
        .ok ({ comps with tzinfo := some tzv }, len_str)
      else if cur < 3 then do
        let v ← pyInt ((timestr.drop pos).take 2)
        let pos2 := pos + 2
        let pos3 :=
          if has_sep ∧ pos2 < len_str ∧ listGet? timestr pos2 = some ':' then pos2 + 1 else pos2
        Isoparser.isotimeGo timestr len_str has_sep fuel (cur + 1) pos3 (comps.setComp cur v)
      else if cur = 3 then
        if ch ≠ '.' then
          Isoparser.isotimeGo timestr len_str has_sep fuel (cur + 1) pos comps
        else do
          let us_str :=
            ((timestr.drop (pos + 1)).take 6).takeWhile (fun c => ¬(c = '-' ∨ c = '+' ∨ c = 'Z'))
          let v ← pyInt us_str
          Isoparser.isotimeGo timestr len_str has_sep fuel (cur + 1) (pos + 1 + us_str.length)
            (comps.setComp 3 (v * (10 : Int) ^ (6 - us_str.length)))
      else
        Isoparser.isotimeGo timestr len_str has_sep fuel (cur + 1) pos comps
    else .ok (comps, pos)

/-- Lines 332-368 of `_parse_isotime`: the component scan and the final
check for unconsumed characters, before the midnight rule is applied. -/
def Isoparser.isotimeScan (timestr : List Char) : Except PyErr TimeComps := do
  let len_str := timestr.length
  let has_sep := decide (3 ≤ len_str) && (listGet? timestr 2 == some ':')
  let r ← Isoparser.isotimeGo timestr len_str has_sep 6 0 0 ⟨0, 0, 0, 0, none⟩
  if r.2 < len_str then .error (.valueError "Unused components in ISO string")
  else .ok r.1

/-- Embedding of `_parse_isotime` (lines 330-376): the scan followed by the midnight
rule of lines 370-374. -/
def Isoparser.parse_isotime_components (timestr : List Char) : Except PyErr TimeComps := do
  let comps ← Isoparser.isotimeScan timestr
  if comps.hour = 24 then
    if ¬(comps.minute = 0 ∧ comps.second = 0 ∧ comps.microsecond = 0) then
      .error (.valueError "Hour may only be 24 at 24:00:00.000")
    else pure { comps with hour := 0 }
  else pure comps

/-- Embedding of `Isoparser.parse_isotime` (lines 135-146): `time(*components)`. -/
def Isoparser.parse_isotime (timestr : List Char) : Except PyErr Time := do
  let comps ← Isoparser.parse_isotime_components timestr
  mkTime comps

/-- Embedding of `_calculate_weekdate` (lines 294-326). -/
def Isoparser.calculate_weekdate (year week day : Int) : Except PyErr Date :=
  if ¬(0 < week ∧ week < 54) then .error (.valueError "Invalid week")
  else if ¬(0 < day ∧ day < 8) then .error (.valueError "Invalid weekday")
  else do
    let jan_4 ← mkDate year 1 4
    let isowd : Nat := (Date.isocal jan_4).2.2
    let week_1 ← dateAddDays jan_4 (-((isowd : Int) - 1))
    dateAddDays week_1 ((week - 1) * 7 + (day - 1))

/-- Embedding of `_parse_isodate_common` (lines 203-240). Returns the component triple
(with unspecified parts defaulted to 1) and the cursor position. -/
def Isoparser.parse_isodate_common (dt_str : List Char) :
    Except PyErr ((Int × Int × Int) × Nat) := do
  let len_str := dt_str.length
  if len_str < 4 then .error (.valueError "ISO string too short")
  else do
    let year ← pyInt (dt_str.take 4)
    if len_str ≤ 4 then pure ((year, 1, 1), 4)
    else do
      let c4 ← pyGet dt_str 4
      let has_sep := c4 = '-'
      let pos := if has_sep then 5 else 4
      if len_str - pos < 2 then .error (.valueError "Invalid common month")
      else do
        let month ← pyInt ((dt_str.drop pos).take 2)
        let pos := pos + 2
        if len_str ≤ pos then pure ((year, month, 1), pos)
        else do
          let pos ←
            if has_sep then do
              let c ← pyGet dt_str pos
              if c ≠ '-' then .error (.valueError "Invalid separator in ISO string")
              else pure (pos + 1)
            else pure pos
          if len_str - pos < 2 then .error (.valueError "Invalid common day")
          else do
            let day ← pyInt ((dt_str.drop pos).take 2)
            pure ((year, month, day), pos + 2)

/-- Lines 248-255 of `_parse_isodate_uncommon`: the year substituted for
the year-less `--MM-DD` form, with the walk back to the latest leap year
when the parsed month/day is February 29. -/
def Isoparser.noYearDefault (p : Isoparser) (month day : Int) : Int :=
  if month = 2 ∧ day = 29 then
    let y1 : Int := (p.default_year : Int) - (p.default_year : Int) % 4
    if y1 % 400 ≠ 0 ∧ y1 % 100 = 0 then y1 - 4 else y1
  else (p.default_year : Int)

/-- Embedding of `_parse_isodate_uncommon` (lines 242-292). -/
def Isoparser.parse_isodate_uncommon (p : Isoparser) (dt_str : List Char) :
    Except PyErr ((Int × Int × Int) × Nat) := do
  if dt_str.take 2 = ['-', '-'] then do
    let month ← pyInt ((dt_str.drop 2).take 2)
    let c4 ← pyGet dt_str 4
    let pos := if c4 = '-' then 5 else 4
    let day ← pyInt ((dt_str.drop pos).take 2)
    let year : Int := p.noYearDefault month day
    pure ((year, month, day), pos + 2)
  else do
    let year ← pyInt (dt_str.take 4)
    let c4 ← pyGet dt_str 4
    let pos := if c4 = '-' then 5 else 4
    let cp ← pyGet dt_str pos
    if cp = 'W' then do
      let pos := pos + 1
      let weekno ← pyInt ((dt_str.drop pos).take 2)
      let pos := pos + 2
      let dp ←
        if pos < dt_str.length then do
          let cd ← pyGet dt_str pos
          let pos2 ←
            if cd = '-' then
              if c4 ≠ '-' then .error (.valueError "Inconsistent use of dash separator")
              else pure (pos + 1)
            else pure pos
          let cday ← pyGet dt_str pos2
          let dayno ← pyInt [cday]
          pure (dayno, pos2 + 1)
        else pure ((1 : Int), pos)
      let base ← Isoparser.calculate_weekdate year weekno dp.1
      pure (((base.year : Int), (base.month : Int), (base.day : Int)), dp.2)
    else do
      let ordinal_day ← pyInt ((dt_str.drop pos).take 3)
      let pos := pos + 3
      if ordinal_day < 1 ∨ (365 + (if isLeapYearInt year then (1 : Int) else 0)) < ordinal_day then
        .error (.valueError "Invalid ordinal day")
      else do
        let jan1 ← mkDate year 1 1
        let base ← dateAddDays jan1 (ordinal_day - 1)
        pure (((base.year : Int), (base.month : Int), (base.day : Int)), pos)

/-- Embedding of `_parse_isodate` (lines 197-201): the common grammar with fallback to
the uncommon grammar on `ValueError` (only `ValueError` is caught). -/
def Isoparser.parse_isodate_inner (p : Isoparser) (dt_str : List Char) :
    Except PyErr ((Int × Int × Int) × Nat) :=
  match Isoparser.parse_isodate_common dt_str with
  | .ok r => .ok r
  | .error (.valueError _) => p.parse_isodate_uncommon dt_str
  | .error e => .error e

/-- Embedding of `Isoparser.parse_isodate` (lines 122-133): `date(*components)`; the
cursor position is dropped without checking for unconsumed input. -/
def Isoparser.parse_isodate (p : Isoparser) (datestr : List Char) : Except PyErr Date := do
  let r ← p.parse_isodate_inner datestr
  mkDate r.1.1 r.1.2.1 r.1.2.2

/-- Embedding of `Isoparser.isoparse` (lines 38-120). -/
def Isoparser.isoparse (p : Isoparser) (dt_str : List Char) (common_only : Bool) :
    Except PyErr DateTime := do
  let r ←
    if common_only then Isoparser.parse_isodate_common dt_str
    else p.parse_isodate_inner dt_str
  let pos := r.2
  if pos < dt_str.length then do
    let c ← pyGet dt_str pos
    if c = p.sep then do
      let tc ← Isoparser.parse_isotime_components (dt_str.drop (pos + 1))
      mkDateTime r.1.1 r.1.2.1 r.1.2.2 tc
    else .error (.valueError "String contains unknown ISO components")
  else mkDateTime r.1.1 r.1.2.1 r.1.2.2 ⟨0, 0, 0, 0, none⟩

/-! ## Rendering helpers used to state round-trip properties -/

/-- The character of a decimal digit. -/
def digitChar (n : Nat) : Char := Char.ofNat (48 + n)

/-- Zero-padded 2-digit decimal rendering. -/
def render2 (n : Nat) : List Char := [digitChar (n / 10), digitChar (n % 10)]

/-- Zero-padded 4-digit decimal rendering. -/
def render4 (n : Nat) : List Char := render2 (n / 100) ++ render2 (n % 100)

/-- Rendering of an ISO week-date triple as `"YYYY-Www-D"`. -/
def fmtWeekDate (t : Nat × Nat × Nat) : List Char :=
  render4 t.1 ++ '-' :: 'W' :: render2 t.2.1 ++ '-' :: [digitChar t.2.2]

/-- The leap-year fallback computation of lines 250-254, on `Nat`
(the claim's "subtract `year mod 4`; if that candidate is divisible by
100 but not by 400, subtract 4 more"). -/
def leapAdjust (dy : Nat) : Nat :=
  let y1 := dy - dy % 4
  if y1 % 400 ≠ 0 ∧ y1 % 100 = 0 then y1 - 4 else y1

/-- A valid calendar date in the range `datetime.date` supports. -/
def validDate (y m d : Nat) : Prop :=
  1 ≤ y ∧ y ≤ 9999 ∧ 1 ≤ m ∧ m ≤ 12 ∧ 1 ≤ d ∧ d ≤ daysInMonth y m

instance (y m d : Nat) : Decidable (validDate y m d) := by
  unfold validDate
  infer_instance

/-! ## Basic lemmas about digits and `pyInt` -/

theorem char_eq_of_toNat_eq {a b : Char} (h : a.toNat = b.toNat) : a = b := by
  cases a; cases b
  simp [Char.toNat] at h
  congr 1
  exact UInt32.toNat.inj h

theorem isDig_toNat {c : Char} (h : isDig c = true) : 48 ≤ c.toNat ∧ c.toNat ≤ 57 := by
  simp [isDig] at h
  exact h

theorem isDig_ne {c : Char} (h : isDig c = true) {d : Char}
    (hd : d.toNat < 48 ∨ 57 < d.toNat) : c ≠ d := by
  intro he
  subst he
  have := isDig_toNat h
  omega

theorem isDig_not_space {c : Char} (h : isDig c = true) : isPySpace c = false := by
  have hb := isDig_toNat h
  have h32 : c ≠ ' ' := isDig_ne h (by decide)
  have h9 : c ≠ '\t' := isDig_ne h (by decide)
  have h10 : c ≠ '\n' := isDig_ne h (by decide)
  have h13 : c ≠ '\r' := isDig_ne h (by decide)
  have h11 : c ≠ '\x0b' := isDig_ne h (by decide)
  have h12 : c ≠ '\x0c' := isDig_ne h (by decide)
  simp [isPySpace, h32, h9, h10, h13, h11, h12]

theorem dropWhile_eq_self_of_none {p : Char → Bool} :
    ∀ {l : List Char}, (∀ x ∈ l, p x = false) → l.dropWhile p = l
  | [], _ => rfl
  | c :: t, h => by
    have hc : p c = false := h c (List.mem_cons_self c t)
    simp [List.dropWhile_cons, hc]

theorem pyStrip_digits {ds : List Char} (h : ds.all isDig = true) : pyStrip ds = ds := by
  have hall : ∀ x ∈ ds, isPySpace x = false := by
    intro x hx
    exact isDig_not_space (by simpa using List.all_eq_true.mp h x hx)
  have h1 : ds.dropWhile isPySpace = ds := dropWhile_eq_self_of_none hall
  have hall2 : ∀ x ∈ ds.reverse, isPySpace x = false := by
    intro x hx
    exact hall x (List.mem_reverse.mp hx)
  have h2 : ds.reverse.dropWhile isPySpace = ds.reverse := dropWhile_eq_self_of_none hall2
  simp [pyStrip, h1, h2]

theorem pyInt_digits {ds : List Char} (hne : ds ≠ []) (h : ds.all isDig = true) :
    pyInt ds = .ok ((digitsVal ds : Nat) : Int) := by
  have hstrip := pyStrip_digits h
  unfold pyInt
  rw [hstrip]
  match ds, hne with
  | c :: t, _ =>
    have hc : isDig c = true := by
      have := List.all_eq_true.mp h c (List.mem_cons_self c t)
      simpa using this
    have hplus : c ≠ '+' := isDig_ne hc (by decide)
    have hminus : c ≠ '-' := isDig_ne hc (by decide)
    simp only [hplus, hminus, if_false]
    unfold pyIntDigits
    simp [h]

theorem digitsVal_from (a : Nat) (ds : List Char) :
    ds.foldl (fun x c => x * 10 + (c.toNat - 48)) a = a * 10 ^ ds.length + digitsVal ds := by
  induction ds generalizing a with
  | nil => simp [digitsVal]
  | cons c t ih =>
    simp only [List.foldl_cons, digitsVal, List.length_cons]
    rw [ih, ih (0 * 10 + (c.toNat - 48))]
    ring

theorem digitsVal_append (a b : List Char) :
    digitsVal (a ++ b) = digitsVal a * 10 ^ b.length + digitsVal b := by
  unfold digitsVal
  rw [List.foldl_append, digitsVal_from]
  rfl

theorem render2_all_isDig {n : Nat} (h : n < 100) : (render2 n).all isDig = true := by
  revert h
  revert n
  decide

theorem digitsVal_render2 {n : Nat} (h : n < 100) : digitsVal (render2 n) = n := by
  revert h
  revert n
  decide

theorem pyInt_render2 {n : Nat} (h : n < 100) : pyInt (render2 n) = .ok (n : Int) := by
  rw [pyInt_digits (by simp [render2]) (render2_all_isDig h), digitsVal_render2 h]

theorem render4_all_isDig {n : Nat} (h : n < 10000) : (render4 n).all isDig = true := by
  unfold render4
  rw [List.all_append]
  rw [render2_all_isDig (by omega), render2_all_isDig (by omega)]
  rfl

theorem digitsVal_render4 {n : Nat} (h : n < 10000) : digitsVal (render4 n) = n := by
  unfold render4
  rw [digitsVal_append, digitsVal_render2 (by omega), digitsVal_render2 (by omega)]
  simp [render2]
  omega

theorem pyInt_render4 {n : Nat} (h : n < 10000) : pyInt (render4 n) = .ok (n : Int) := by
  rw [pyInt_digits (by simp [render4, render2]) (render4_all_isDig h), digitsVal_render4 h]

theorem digitChar_isDig {n : Nat} (h : n < 10) : isDig (digitChar n) = true := by
  revert h
  revert n
  decide

theorem digitsVal_digitChar {n : Nat} (h : n < 10) : digitsVal [digitChar n] = n := by
  revert h
  revert n
  decide

theorem pyInt_digitChar {n : Nat} (h : n < 10) : pyInt [digitChar n] = .ok (n : Int) := by
  rw [pyInt_digits (by simp) (by simp [digitChar_isDig h]), digitsVal_digitChar h]

/-! ## Calendar arithmetic lemmas -/

theorem isLeapYear_iff {y : Nat} :
    isLeapYear y = true ↔ (y % 4 = 0 ∧ (¬y % 100 = 0 ∨ y % 400 = 0)) := by
  simp [isLeapYear]

theorem daysBeforeYear_succ {y : Nat} (h : 1 ≤ y) :
    daysBeforeYear (y + 1) = daysBeforeYear y + daysInYear y := by
  unfold daysBeforeYear daysInYear
  by_cases hl : isLeapYear y = true
  · rw [if_pos hl]
    rw [isLeapYear_iff] at hl
    omega
  · rw [if_neg hl]
    rw [isLeapYear_iff] at hl
    push_neg at hl
    omega

theorem daysInYear_lb (y : Nat) : 365 ≤ daysInYear y := by
  unfold daysInYear
  split <;> omega

theorem daysInYear_ub (y : Nat) : daysInYear y ≤ 366 := by
  unfold daysInYear
  split <;> omega

theorem daysBeforeYear_le_succ (y : Nat) : daysBeforeYear y ≤ daysBeforeYear (y + 1) := by
  match y with
  | 0 => simp [daysBeforeYear]
  | z + 1 =>
    rw [daysBeforeYear_succ (y := z + 1) (by omega)]
    omega

theorem daysBeforeYear_mono : ∀ {a b : Nat}, a ≤ b → daysBeforeYear a ≤ daysBeforeYear b := by
  intro a b h
  induction b with
  | zero => simp_all
  | succ n ih =>
    rcases le_or_lt a n with hc | hc
    · exact le_trans (ih hc) (daysBeforeYear_le_succ n)
    · have : a = n + 1 := by omega
      subst this
      rfl

theorem daysBeforeMonth_one (y : Nat) : daysBeforeMonth y 1 = 0 := rfl

theorem daysBeforeMonth_13 (y : Nat) : daysBeforeMonth y 13 = daysInYear y := by
  unfold daysBeforeMonth daysInYear
  by_cases hl : isLeapYear y = true <;> simp [hl]

theorem daysBeforeMonth_succ {y m : Nat} (h1 : 1 ≤ m) (h2 : m ≤ 12) :
    daysBeforeMonth y (m + 1) = daysBeforeMonth y m + daysInMonth y m := by
  interval_cases m <;>
    (unfold daysBeforeMonth daysInMonth; by_cases hl : isLeapYear y = true <;> simp [hl])

theorem daysBeforeMonth_le_succ {y m : Nat} (h1 : 1 ≤ m) (h2 : m ≤ 12) :
    daysBeforeMonth y m ≤ daysBeforeMonth y (m + 1) := by
  rw [daysBeforeMonth_succ h1 h2]
  omega

theorem daysBeforeMonth_mono {y : Nat} : ∀ {a b : Nat}, 1 ≤ a → a ≤ b → b ≤ 13 →
    daysBeforeMonth y a ≤ daysBeforeMonth y b := by
  intro a b h1 h2 h3
  induction b with
  | zero => omega
  | succ n ih =>
    rcases le_or_lt a n with hc | hc
    · exact le_trans (ih hc (by omega)) (daysBeforeMonth_le_succ (by omega) (by omega))
    · have : a = n + 1 := by omega
      subst this
      rfl

theorem dayOfYear_lt {y m d : Nat} (h3 : 1 ≤ m) (h4 : m ≤ 12) (h5 : 1 ≤ d)
    (h6 : d ≤ daysInMonth y m) : daysBeforeMonth y m + (d - 1) < daysInYear y := by
  interval_cases m <;>
    (unfold daysBeforeMonth daysInYear
     unfold daysInMonth at h6
     by_cases hl : isLeapYear y = true <;> simp [hl] at * <;> omega)

theorem yearFromAux_exact : ∀ (fuel y0 y D n : Nat), 1 ≤ y0 → y0 ≤ y → y < y0 + fuel + 1 →
    daysBeforeYear y0 + D = daysBeforeYear y → n < daysInYear y →
    yearFromAux fuel y0 (D + n) = (y, n) := by
  intro fuel
  induction fuel with
  | zero =>
    intro y0 y D n h0 h1 h2 hD hn
    have hy : y = y0 := by omega
    subst hy
    have : D = 0 := by omega
    subst this
    simp [yearFromAux]
  | succ fuel ih =>
    intro y0 y D n h0 h1 h2 hD hn
    unfold yearFromAux
    rcases Nat.eq_or_lt_of_le h1 with he | hlt
    · subst he
      have hD0 : D = 0 := by omega
      subst hD0
      simp [hn]
    · have hsucc := daysBeforeYear_succ h0
      have hmono := daysBeforeYear_mono (show y0 + 1 ≤ y by omega)
      have hge : daysInYear y0 ≤ D := by omega
      rw [if_neg (by omega)]
      have harg : D + n - daysInYear y0 = (D - daysInYear y0) + n := by omega
      rw [harg]
      exact ih (y0 + 1) y (D - daysInYear y0) n (by omega) hlt (by omega) (by omega) hn

theorem monthFromAux_exact : ∀ (fuel m0 m D n y : Nat), 1 ≤ m0 → m0 ≤ m → m ≤ 12 →
    m < m0 + fuel + 1 →
    daysBeforeMonth y m0 + D = daysBeforeMonth y m → n < daysInMonth y m →
    monthFromAux fuel y m0 (D + n) = (m, n) := by
  intro fuel
  induction fuel with
  | zero =>
    intro m0 m D n y h0 h1 h2 h3 hD hn
    have hm : m = m0 := by omega
    subst hm
    have : D = 0 := by omega
    subst this
    simp [monthFromAux]
  | succ fuel ih =>
    intro m0 m D n y h0 h1 h2 h3 hD hn
    unfold monthFromAux
    rcases Nat.eq_or_lt_of_le h1 with he | hlt
    · subst he
      have hD0 : D = 0 := by omega
      subst hD0
      simp [hn]
    · have hsucc := daysBeforeMonth_succ (y := y) h0 (by omega)
      have hmono := daysBeforeMonth_mono (y := y) (by omega : 1 ≤ m0 + 1)
        (show m0 + 1 ≤ m by omega) (by omega)
      have hge : daysInMonth y m0 ≤ D := by omega
      rw [if_neg (by omega)]
      have harg : D + n - daysInMonth y m0 = (D - daysInMonth y m0) + n := by omega
      rw [harg]
      exact ih (m0 + 1) m (D - daysInMonth y m0) n y (by omega) hlt h2 (by omega) (by omega) hn

theorem fromOrdinal_toOrdinal {y m d : Nat} (h : validDate y m d) :
    fromOrdinal (toOrdinal y m d) = ⟨y, m, d⟩ := by
  obtain ⟨h1, h2, h3, h4, h5, h6⟩ := h
  unfold fromOrdinal toOrdinal
  have hk : daysBeforeYear y + daysBeforeMonth y m + d - 1 =
      daysBeforeYear y + (daysBeforeMonth y m + (d - 1)) := by omega
  rw [hk]
  have hy : yearFromAux 10000 1 (daysBeforeYear y + (daysBeforeMonth y m + (d - 1))) =
      (y, daysBeforeMonth y m + (d - 1)) :=
    yearFromAux_exact 10000 1 y (daysBeforeYear y) (daysBeforeMonth y m + (d - 1))
      (by omega) h1 (by omega) (by simp [daysBeforeYear]) (dayOfYear_lt h3 h4 h5 h6)
  rw [hy]
  have hm : monthFromAux 12 y 1 (daysBeforeMonth y m + (d - 1)) = (m, d - 1) :=
    monthFromAux_exact 12 1 m (daysBeforeMonth y m) (d - 1) y (by omega) h3 h4 (by omega)
      (by simp [daysBeforeMonth_one]) (by omega)
  simp [hm]
  omega

theorem yearFromAux_sound : ∀ (fuel y0 n : Nat), 1 ≤ y0 →
    daysBeforeYear y0 + n < daysBeforeYear (y0 + fuel) →
    (yearFromAux fuel y0 n).2 < daysInYear (yearFromAux fuel y0 n).1 ∧
    daysBeforeYear (yearFromAux fuel y0 n).1 + (yearFromAux fuel y0 n).2 =
      daysBeforeYear y0 + n ∧
    y0 ≤ (yearFromAux fuel y0 n).1 := by
  intro fuel
  induction fuel with
  | zero =>
    intro y0 n h0 h
    simp at h
  | succ fuel ih =>
    intro y0 n h0 h
    unfold yearFromAux
    by_cases hc : n < daysInYear y0
    · rw [if_pos hc]
      exact ⟨hc, rfl, le_refl y0⟩
    · rw [if_neg hc]
      have hsucc := daysBeforeYear_succ h0
      have hred : y0 + (fuel + 1) = (y0 + 1) + fuel := by omega
      rw [hred] at h
      obtain ⟨ha, hb, hc2⟩ := ih (y0 + 1) (n - daysInYear y0) (by omega) (by omega)
      exact ⟨ha, by omega, by omega⟩

theorem monthFromAux_sound : ∀ (fuel m0 n y : Nat), 1 ≤ m0 → m0 + fuel ≤ 13 →
    daysBeforeMonth y m0 + n < daysBeforeMonth y (m0 + fuel) →
    (monthFromAux fuel y m0 n).2 < daysInMonth y (monthFromAux fuel y m0 n).1 ∧
    daysBeforeMonth y (monthFromAux fuel y m0 n).1 + (monthFromAux fuel y m0 n).2 =
      daysBeforeMonth y m0 + n ∧
    1 ≤ (monthFromAux fuel y m0 n).1 ∧ (monthFromAux fuel y m0 n).1 < m0 + fuel := by
  intro fuel
  induction fuel with
  | zero =>
    intro m0 n y h0 h13 h
    simp at h
  | succ fuel ih =>
    intro m0 n y h0 h13 h
    unfold monthFromAux
    by_cases hc : n < daysInMonth y m0
    · rw [if_pos hc]
      exact ⟨hc, rfl, h0, by omega⟩
    · rw [if_neg hc]
      have hsucc := daysBeforeMonth_succ (y := y) h0 (by omega)
      have hred : m0 + (fuel + 1) = (m0 + 1) + fuel := by omega
      rw [hred] at h
      obtain ⟨ha, hb, hc2, hd2⟩ := ih (m0 + 1) (n - daysInMonth y m0) y (by omega) (by omega)
        (by omega)
      exact ⟨ha, by omega, by omega, by omega⟩

theorem toOrdinal_fromOrdinal {o : Nat} (h1 : 1 ≤ o) (h2 : o ≤ maxOrdinal) :
    validDate (fromOrdinal o).year (fromOrdinal o).month (fromOrdinal o).day ∧
    (fromOrdinal o).toOrd = o ∧
    daysBeforeYear (fromOrdinal o).year < o ∧
    o ≤ daysBeforeYear ((fromOrdinal o).year + 1) := by
  have hmax : maxOrdinal = 3652059 := rfl
  have h10k : daysBeforeYear 10000 = 3652059 := by decide
  have hbig : daysBeforeYear (1 + 10000) = 3652425 := by decide
  have hdb1 : daysBeforeYear 1 = 0 := by decide
  have hy := yearFromAux_sound 10000 1 (o - 1) (by omega) (by rw [hbig, hdb1]; omega)
  set r := yearFromAux 10000 1 (o - 1) with hr
  obtain ⟨hy1, hy2, hy3⟩ := hy
  rw [hdb1] at hy2
  have h13 : daysBeforeMonth r.1 13 = daysInYear r.1 := daysBeforeMonth_13 r.1
  have hm := monthFromAux_sound 12 1 r.2 r.1 (by omega) (by omega)
    (by rw [(by omega : (1 : Nat) + 12 = 13), h13, daysBeforeMonth_one]; omega)
  set s := monthFromAux 12 r.1 1 r.2 with hs
  obtain ⟨hm1, hm2, hm3, hm4⟩ := hm
  rw [daysBeforeMonth_one] at hm2
  have hyle : r.1 ≤ 9999 := by
    by_contra hcon
    have : daysBeforeYear 10000 ≤ daysBeforeYear r.1 := daysBeforeYear_mono (by omega)
    omega
  have hsucc : daysBeforeYear (r.1 + 1) = daysBeforeYear r.1 + daysInYear r.1 :=
    daysBeforeYear_succ (by omega)
  have hfo : fromOrdinal o = ⟨r.1, s.1, s.2 + 1⟩ := rfl
  rw [hfo]
  refine ⟨?_, ?_, ?_, ?_⟩
  · show 1 ≤ r.1 ∧ r.1 ≤ 9999 ∧ 1 ≤ s.1 ∧ s.1 ≤ 12 ∧ 1 ≤ s.2 + 1 ∧ s.2 + 1 ≤ daysInMonth r.1 s.1
    omega
  · show daysBeforeYear r.1 + daysBeforeMonth r.1 s.1 + (s.2 + 1) = o
    omega
  · show daysBeforeYear r.1 < o
    omega
  · show o ≤ daysBeforeYear (r.1 + 1)
    omega

/-! ## ISO calendar lemmas -/

theorem toOrdinal_jan (y d : Nat) : toOrdinal y 1 d = daysBeforeYear y + d := by
  unfold toOrdinal daysBeforeMonth
  simp

theorem isoweek1monday_facts {y : Nat} (h : 1 ≤ y) :
    daysBeforeYear y + 1 ≤ isoweek1monday y + 3 ∧
    isoweek1monday y ≤ daysBeforeYear y + 4 ∧
    1 ≤ isoweek1monday y ∧
    isoweek1monday y % 7 = 1 := by
  unfold isoweek1monday
  rw [toOrdinal_jan]
  set f := daysBeforeYear y + 1 with hf
  have hf1 : 1 ≤ f := by omega
  by_cases hc : 3 < (f + 6) % 7 <;> simp only [hc, if_true, if_false, reduceIte] <;> omega

theorem isoweek1monday_gap {a : Nat} (h : 1 ≤ a) :
    isoweek1monday a + 364 ≤ isoweek1monday (a + 1) ∧
    isoweek1monday (a + 1) ≤ isoweek1monday a + 371 := by
  have h1 := isoweek1monday_facts h
  have h2 := isoweek1monday_facts (show 1 ≤ a + 1 by omega)
  have hsucc := daysBeforeYear_succ h
  have hlb := daysInYear_lb a
  have hub := daysInYear_ub a
  omega

theorem toOrdinal_bounds {y m d : Nat} (hv : validDate y m d) :
    daysBeforeYear y + 1 ≤ toOrdinal y m d ∧
    toOrdinal y m d ≤ daysBeforeYear (y + 1) := by
  obtain ⟨h1, h2, h3, h4, h5, h6⟩ := hv
  have hdoy := dayOfYear_lt h3 h4 h5 h6
  have hsucc := daysBeforeYear_succ h1
  unfold toOrdinal
  omega

theorem toOrdinal_le_max {y m d : Nat} (hv : validDate y m d) :
    1 ≤ toOrdinal y m d ∧ toOrdinal y m d ≤ maxOrdinal := by
  have hb := toOrdinal_bounds hv
  have hy2 : y ≤ 9999 := hv.2.1
  have hmono : daysBeforeYear (y + 1) ≤ daysBeforeYear 10000 :=
    daysBeforeYear_mono (by omega : y + 1 ≤ 10000)
  have h10k : daysBeforeYear 10000 = 3652059 := by decide
  have hmax : maxOrdinal = 3652059 := rfl
  omega

theorem isocalendar_spec {y m d : Nat} (hv : validDate y m d) :
    1 ≤ (isocalendar y m d).1 ∧ (isocalendar y m d).1 ≤ 9999 ∧
    1 ≤ (isocalendar y m d).2.1 ∧ (isocalendar y m d).2.1 ≤ 53 ∧
    1 ≤ (isocalendar y m d).2.2 ∧ (isocalendar y m d).2.2 ≤ 7 ∧
    isoweek1monday (isocalendar y m d).1 ≤ toOrdinal y m d ∧
    toOrdinal y m d < isoweek1monday ((isocalendar y m d).1 + 1) ∧
    toOrdinal y m d =
      isoweek1monday (isocalendar y m d).1 +
        ((isocalendar y m d).2.1 - 1) * 7 + ((isocalendar y m d).2.2 - 1) := by
  have hy1 : 1 ≤ y := hv.1
  have hy2 : y ≤ 9999 := hv.2.1
  have htd := toOrdinal_bounds hv
  have hw1y := isoweek1monday_facts hy1
  unfold isocalendar
  by_cases hb1 : toOrdinal y m d < isoweek1monday y
  · -- CPython's `week < 0` branch: the date belongs to ISO year `y - 1`
    have hyge2 : 2 ≤ y := by
      by_contra hcon
      have hy1' : y = 1 := by omega
      subst hy1'
      have : isoweek1monday 1 = 1 := by decide
      omega
    have hwp := isoweek1monday_facts (show 1 ≤ y - 1 by omega)
    have hsy : daysBeforeYear y = daysBeforeYear (y - 1) + daysInYear (y - 1) := by
      have := daysBeforeYear_succ (show 1 ≤ y - 1 by omega)
      have hyy : y - 1 + 1 = y := by omega
      rw [hyy] at this
      exact this
    have hub := daysInYear_ub (y - 1)
    have hlbp := daysInYear_lb (y - 1)
    have hple : isoweek1monday (y - 1) ≤ toOrdinal y m d := by omega
    have hdiff : toOrdinal y m d - isoweek1monday (y - 1) ≤ 370 := by omega
    simp only [if_pos hb1]
    have hyy : y - 1 + 1 = y := by omega
    rw [hyy]
    refine ⟨by omega, by omega, by omega, by omega, by omega, by omega, by omega, hb1, by omega⟩
  · simp only [if_neg hb1]
    push_neg at hb1
    by_cases hb2 : 52 ≤ (toOrdinal y m d - isoweek1monday y) / 7 ∧
        isoweek1monday (y + 1) ≤ toOrdinal y m d
    · -- the date belongs to ISO year `y + 1`
      have hy9999 : y ≤ 9998 := by
        by_contra hcon
        have hyeq : y = 9999 := by omega
        subst hyeq
        have hconc : isoweek1monday (9999 + 1) = 3652062 := by decide
        have h10k : daysBeforeYear (9999 + 1) = 3652059 := by decide
        omega
      have hwn := isoweek1monday_facts (show 1 ≤ y + 1 by omega)
      have hsucc := daysBeforeYear_succ hy1
      have hnear : toOrdinal y m d ≤ isoweek1monday (y + 1) + 2 := by omega
      have hgapn := isoweek1monday_gap (show 1 ≤ y + 1 by omega)
      simp only [if_pos hb2]
      refine ⟨by omega, by omega, by omega, by omega, by omega, by omega, hb2.2, by omega,
        by omega⟩
    · -- the date belongs to ISO year `y`
      have hsucc := daysBeforeYear_succ hy1
      have hwn := isoweek1monday_facts (show 1 ≤ y + 1 by omega)
      have hlb := daysInYear_lb y
      have hub := daysInYear_ub y
      have hweekle : (toOrdinal y m d - isoweek1monday y) / 7 ≤ 52 := by omega
      have hhigh : toOrdinal y m d < isoweek1monday (y + 1) := by
        by_contra hcon
        push_neg at hcon
        have : 52 ≤ (toOrdinal y m d - isoweek1monday y) / 7 := by omega
        exact hb2 ⟨this, hcon⟩
      simp only [if_neg hb2]
      refine ⟨by omega, by omega, by omega, by omega, by omega, by omega, hb1, hhigh, by omega⟩

theorem isocalendar_unique {y m d Y W Dd : Nat} (hv : validDate y m d) (hY1 : 1 ≤ Y)
    (hW1 : 1 ≤ W) (hW53 : W ≤ 53) (hD1 : 1 ≤ Dd) (hD7 : Dd ≤ 7)
    (hlow : isoweek1monday Y ≤ toOrdinal y m d)
    (hhigh : toOrdinal y m d < isoweek1monday (Y + 1))
    (hdec : toOrdinal y m d = isoweek1monday Y + (W - 1) * 7 + (Dd - 1)) :
    isocalendar y m d = (Y, W, Dd) := by
  obtain ⟨s1, s2, s3, s4, s5, s6, s7, s8, s9⟩ := isocalendar_spec hv
  have hyeq : (isocalendar y m d).1 = Y := by
    by_contra hne
    rcases lt_or_gt_of_ne hne with hlt | hgt
    · have hw1 : isoweek1monday ((isocalendar y m d).1 + 1) ≤ isoweek1monday Y := by
        rcases eq_or_lt_of_le (show (isocalendar y m d).1 + 1 ≤ Y by omega) with he | hlt2
        · rw [he]
        · have hfa := isoweek1monday_facts (show 1 ≤ (isocalendar y m d).1 + 1 by omega)
          have hfb := isoweek1monday_facts (show 1 ≤ Y by omega)
          have hmono := daysBeforeYear_mono (show (isocalendar y m d).1 + 1 + 1 ≤ Y by omega)
          have hsucc := daysBeforeYear_succ (show 1 ≤ (isocalendar y m d).1 + 1 by omega)
          have hlb := daysInYear_lb ((isocalendar y m d).1 + 1)
          omega
      omega
    · have hw1 : isoweek1monday (Y + 1) ≤ isoweek1monday (isocalendar y m d).1 := by
        rcases eq_or_lt_of_le (show Y + 1 ≤ (isocalendar y m d).1 by omega) with he | hlt2
        · rw [he]
        · have hfa := isoweek1monday_facts (show 1 ≤ Y + 1 by omega)
          have hfb := isoweek1monday_facts (show 1 ≤ (isocalendar y m d).1 by omega)
          have hmono := daysBeforeYear_mono (show Y + 1 + 1 ≤ (isocalendar y m d).1 by omega)
          have hsucc := daysBeforeYear_succ (show 1 ≤ Y + 1 by omega)
          have hlb := daysInYear_lb (Y + 1)
          omega
      omega
  rw [hyeq] at s7 s8 s9
  have h21 : (isocalendar y m d).2.1 = W := by omega
  have h22 : (isocalendar y m d).2.2 = Dd := by omega
  have heta : isocalendar y m d =
      ((isocalendar y m d).1, (isocalendar y m d).2.1, (isocalendar y m d).2.2) := rfl
  rw [heta, hyeq, h21, h22]

theorem isocal_jan4 {y : Nat} (h1 : 1 ≤ y) :
    (isocalendar y 1 4).2.2 = toOrdinal y 1 4 - isoweek1monday y + 1 ∧
    isoweek1monday y ≤ toOrdinal y 1 4 := by
  have hwf := isoweek1monday_facts h1
  have hjan : toOrdinal y 1 4 = daysBeforeYear y + 4 := toOrdinal_jan y 4
  have hb1 : ¬(toOrdinal y 1 4 < isoweek1monday y) := by omega
  have hb2 : ¬(52 ≤ (toOrdinal y 1 4 - isoweek1monday y) / 7 ∧
      isoweek1monday (y + 1) ≤ toOrdinal y 1 4) := by
    intro hcon
    have := hcon.1
    omega
  unfold isocalendar
  simp only [if_neg hb1, if_neg hb2]
  constructor
  · omega
  · omega

theorem dateAddDays_ok {dt : Date} {k : Int} {r : Nat} (h1 : (dt.toOrd : Int) + k = (r : Int))
    (h2 : 1 ≤ r) (h3 : r ≤ maxOrdinal) : dateAddDays dt k = .ok (fromOrdinal r) := by
  unfold dateAddDays
  simp only [h1]
  rw [if_pos ⟨by omega, by omega⟩]
  rw [Int.toNat_natCast]

theorem mkDate_nat {y m d : Nat} (hv : validDate y m d) :
    mkDate (y : Int) (m : Int) (d : Int) = .ok ⟨y, m, d⟩ := by
  obtain ⟨h1, h2, h3, h4, h5, h6⟩ := hv
  unfold mkDate
  rw [if_pos]
  · simp only [Int.toNat_natCast]
  · simp only [Int.toNat_natCast]
    refine ⟨by omega, by omega, by omega, by omega, by omega, by exact_mod_cast h6⟩

theorem calculate_weekdate_ok {y w dd : Nat} (h1 : 1 ≤ y) (h2 : y ≤ 9999) (hw1 : 1 ≤ w)
    (hw2 : w ≤ 53) (hd1 : 1 ≤ dd) (hd2 : dd ≤ 7)
    (hrange : isoweek1monday y + (w - 1) * 7 + (dd - 1) ≤ maxOrdinal) :
    Isoparser.calculate_weekdate (y : Int) (w : Int) (dd : Int) =
      .ok (fromOrdinal (isoweek1monday y + (w - 1) * 7 + (dd - 1))) := by
  have hj4 := isocal_jan4 (y := y) h1
  have hwf := isoweek1monday_facts h1
  have hjan : toOrdinal y 1 4 = daysBeforeYear y + 4 := toOrdinal_jan y 4
  have hmk : mkDate (y : Int) 1 4 = .ok ⟨y, 1, 4⟩ := by
    have := mkDate_nat (y := y) (m := 1) (d := 4)
      ⟨h1, h2, by omega, by omega, by omega, by simp [daysInMonth]⟩
    simpa using this
  unfold Isoparser.calculate_weekdate
  rw [if_neg (not_not_intro ⟨by omega, by omega⟩)]
  rw [if_neg (not_not_intro ⟨by omega, by omega⟩)]
  rw [hmk]
  show (do
    let week_1 ← dateAddDays ⟨y, 1, 4⟩ (-(((Date.isocal ⟨y, 1, 4⟩).2.2 : Int) - 1))
    dateAddDays week_1 (((w : Int) - 1) * 7 + ((dd : Int) - 1))) =
      .ok (fromOrdinal (isoweek1monday y + (w - 1) * 7 + (dd - 1)))
  have hisocal : (Date.isocal ⟨y, 1, 4⟩).2.2 = toOrdinal y 1 4 - isoweek1monday y + 1 := hj4.1
  have htoOrd : (Date.toOrd ⟨y, 1, 4⟩) = toOrdinal y 1 4 := rfl
  have hstep1 : dateAddDays ⟨y, 1, 4⟩ (-(((Date.isocal ⟨y, 1, 4⟩).2.2 : Int) - 1)) =
      .ok (fromOrdinal (isoweek1monday y)) := by
    apply dateAddDays_ok
    · rw [htoOrd, hisocal]
      have hle : isoweek1monday y ≤ toOrdinal y 1 4 := hj4.2
      push_cast
      omega
    · omega
    · have hmx : maxOrdinal = 3652059 := rfl
      omega
  rw [hstep1]
  show dateAddDays (fromOrdinal (isoweek1monday y)) (((w : Int) - 1) * 7 + ((dd : Int) - 1)) =
      .ok (fromOrdinal (isoweek1monday y + (w - 1) * 7 + (dd - 1)))
  have hw1max : isoweek1monday y ≤ maxOrdinal := by omega
  have hto := (toOrdinal_fromOrdinal (o := isoweek1monday y) (by omega) hw1max).2.1
  apply dateAddDays_ok
  · rw [hto]
    push_cast
    omega
  · omega
  · exact hrange

theorem calculate_weekdate_isocal {y m d : Nat} (hv : validDate y m d) :
    Isoparser.calculate_weekdate ((isocalendar y m d).1 : Int)
      ((isocalendar y m d).2.1 : Int) ((isocalendar y m d).2.2 : Int) = .ok ⟨y, m, d⟩ := by
  obtain ⟨s1, s2, s3, s4, s5, s6, s7, s8, s9⟩ := isocalendar_spec hv
  have hmax := toOrdinal_le_max hv
  rw [calculate_weekdate_ok s1 s2 s3 s4 s5 s6 (by omega)]
  rw [← s9, fromOrdinal_toOrdinal hv]

/-! ## Reduction lemmas for `Except` and symbolic parser runs -/

@[simp] theorem except_bind_ok {ε α β : Type} (a : α) (f : α → Except ε β) :
    (Bind.bind (Except.ok a) f) = f a := rfl

@[simp] theorem except_bind_err {ε α β : Type} (e : ε) (f : α → Except ε β) :
    (Bind.bind (Except.error e : Except ε α) f) = Except.error e := rfl

theorem except_bind_pure {ε α β : Type} (x : Except ε α) (f : α → β) :
    (Bind.bind x (fun a => pure (f a))) = x.map f := by
  cases x <;> rfl

theorem pyStrip_eq_self {ds : List Char} (h : ∀ x ∈ ds, isPySpace x = false) :
    pyStrip ds = ds := by
  have h1 : ds.dropWhile isPySpace = ds := dropWhile_eq_self_of_none h
  have h2 : ds.reverse.dropWhile isPySpace = ds.reverse :=
    dropWhile_eq_self_of_none (fun x hx => h x (List.mem_reverse.mp hx))
  simp [pyStrip, h1, h2]

theorem takeWhile_eq_self_of_all {p : Char → Bool} :
    ∀ {l : List Char}, (∀ x ∈ l, p x = true) → l.takeWhile p = l
  | [], _ => rfl
  | c :: t, h => by
    have hc : p c = true := h c (List.mem_cons_self c t)
    simp only [List.takeWhile_cons, hc, if_true]
    rw [takeWhile_eq_self_of_all (fun x hx => h x (List.mem_cons_of_mem c hx))]

theorem pyInt_W_err {c : Char} (hc : isDig c = true) :
    pyInt ['W', c] = .error (.valueError "invalid literal for int() with base 10") := by
  have hs : pyStrip ['W', c] = ['W', c] := by
    apply pyStrip_eq_self
    intro x hx
    simp only [List.mem_cons, List.not_mem_nil, or_false] at hx
    rcases hx with rfl | rfl
    · decide
    · exact isDig_not_space hc
  simp [pyInt, hs, pyIntDigits, show isDig 'W' = false by decide,
    show ('W' : Char) ≠ '+' by decide, show ('W' : Char) ≠ '-' by decide]

theorem pyInt_dashdash_err {a b : Char} (ha : isDig a = true) (hb : isDig b = true) :
    pyInt ['-', '-', a, b] = .error (.valueError "invalid literal for int() with base 10") := by
  have hs : pyStrip ['-', '-', a, b] = ['-', '-', a, b] := by
    apply pyStrip_eq_self
    intro x hx
    simp only [List.mem_cons, List.not_mem_nil, or_false] at hx
    rcases hx with rfl | rfl | rfl | rfl
    · decide
    · decide
    · exact isDig_not_space ha
    · exact isDig_not_space hb
  simp [pyInt, hs, pyIntDigits, Except.map, show isDig '-' = false by decide,
    show ('-' : Char) ≠ '+' by decide]

/-! ## Symbolic runs of the common date grammar -/

theorem parse_common_dashed (y1 y2 y3 y4 m1 m2 d1 d2 : Char)
    (hy : [y1, y2, y3, y4].all isDig = true) (hm : [m1, m2].all isDig = true)
    (hd : [d1, d2].all isDig = true) :
    Isoparser.parse_isodate_common [y1, y2, y3, y4, '-', m1, m2, '-', d1, d2] =
      .ok ((((digitsVal [y1, y2, y3, y4] : Nat) : Int), ((digitsVal [m1, m2] : Nat) : Int),
        ((digitsVal [d1, d2] : Nat) : Int)), 10) := by
  have h1 := pyInt_digits (by simp) hy
  have h2 := pyInt_digits (by simp) hm
  have h3 := pyInt_digits (by simp) hd
  simp [Isoparser.parse_isodate_common, h1, h2, h3, pyGet]

theorem parse_common_undashed (y1 y2 y3 y4 m1 m2 d1 d2 : Char)
    (hy : [y1, y2, y3, y4].all isDig = true) (hm : [m1, m2].all isDig = true)
    (hd : [d1, d2].all isDig = true) (hm1 : isDig m1 = true) :
    Isoparser.parse_isodate_common [y1, y2, y3, y4, m1, m2, d1, d2] =
      .ok ((((digitsVal [y1, y2, y3, y4] : Nat) : Int), ((digitsVal [m1, m2] : Nat) : Int),
        ((digitsVal [d1, d2] : Nat) : Int)), 8) := by
  have h1 := pyInt_digits (by simp) hy
  have h2 := pyInt_digits (by simp) hm
  have h3 := pyInt_digits (by simp) hd
  have hne : m1 ≠ '-' := isDig_ne hm1 (by decide)
  simp [Isoparser.parse_isodate_common, h1, h2, h3, pyGet, hne]

theorem parse_common_weekDD_err (y1 y2 y3 y4 w1c w2c dc : Char)
    (hy : [y1, y2, y3, y4].all isDig = true) (hw1 : isDig w1c = true) :
    Isoparser.parse_isodate_common [y1, y2, y3, y4, '-', 'W', w1c, w2c, '-', dc] =
      .error (.valueError "invalid literal for int() with base 10") := by
  have h1 := pyInt_digits (by simp) hy
  have hW := pyInt_W_err hw1
  simp [Isoparser.parse_isodate_common, h1, hW, pyGet]

theorem parse_common_weekDN_err (y1 y2 y3 y4 w1c w2c dc : Char)
    (hy : [y1, y2, y3, y4].all isDig = true) (hw1 : isDig w1c = true) :
    Isoparser.parse_isodate_common [y1, y2, y3, y4, '-', 'W', w1c, w2c, dc] =
      .error (.valueError "invalid literal for int() with base 10") := by
  have h1 := pyInt_digits (by simp) hy
  have hW := pyInt_W_err hw1
  simp [Isoparser.parse_isodate_common, h1, hW, pyGet]

theorem parse_common_weekND_err (y1 y2 y3 y4 w1c w2c dc : Char)
    (hy : [y1, y2, y3, y4].all isDig = true) (hw1 : isDig w1c = true) :
    Isoparser.parse_isodate_common [y1, y2, y3, y4, 'W', w1c, w2c, '-', dc] =
      .error (.valueError "invalid literal for int() with base 10") := by
  have h1 := pyInt_digits (by simp) hy
  have hW := pyInt_W_err hw1
  simp [Isoparser.parse_isodate_common, h1, hW, pyGet]

theorem parse_common_dashdash7_err (m1 m2 d1 d2 : Char)
    (hm : [m1, m2].all isDig = true) (hd : [d1, d2].all isDig = true) :
    Isoparser.parse_isodate_common ['-', '-', m1, m2, '-', d1, d2] =
      .error (.valueError "invalid literal for int() with base 10") := by
  have hm1 : isDig m1 = true := by simp at hm; exact hm.1
  have hm2 : isDig m2 = true := by simp at hm; exact hm.2
  have hdd := pyInt_dashdash_err hm1 hm2
  simp [Isoparser.parse_isodate_common, hdd]

theorem parse_common_dashdash6_err (m1 m2 d1 d2 : Char)
    (hm : [m1, m2].all isDig = true) (hd : [d1, d2].all isDig = true) :
    Isoparser.parse_isodate_common ['-', '-', m1, m2, d1, d2] =
      .error (.valueError "invalid literal for int() with base 10") := by
  have hm1 : isDig m1 = true := by simp at hm; exact hm.1
  have hm2 : isDig m2 = true := by simp at hm; exact hm.2
  have hdd := pyInt_dashdash_err hm1 hm2
  simp [Isoparser.parse_isodate_common, hdd]

/-! ## Symbolic runs of the uncommon date grammar -/

theorem parse_uncommon_weekDD {p : Isoparser} (y1 y2 y3 y4 w1c w2c dc : Char)
    (hy : [y1, y2, y3, y4].all isDig = true) (hw : [w1c, w2c].all isDig = true)
    (hdc : isDig dc = true) :
    p.parse_isodate_uncommon [y1, y2, y3, y4, '-', 'W', w1c, w2c, '-', dc] =
      (Isoparser.calculate_weekdate ((digitsVal [y1, y2, y3, y4] : Nat) : Int)
        ((digitsVal [w1c, w2c] : Nat) : Int) ((digitsVal [dc] : Nat) : Int)).map
        (fun base => ((((base.year : Nat) : Int), ((base.month : Nat) : Int),
          ((base.day : Nat) : Int)), 10)) := by
  have h1 := pyInt_digits (by simp) hy
  have h2 := pyInt_digits (by simp) hw
  have h3 := pyInt_digits (by simp) (show [dc].all isDig = true by simp [hdc])
  have hy1 : isDig y1 = true := by simp at hy; exact hy.1
  have hne1 : y1 ≠ '-' := isDig_ne hy1 (by decide)
  simp [Isoparser.parse_isodate_uncommon, h1, h2, h3, pyGet, hne1, except_bind_pure]
  rfl

theorem parse_uncommon_weekND {p : Isoparser} (y1 y2 y3 y4 w1c w2c dc : Char)
    (hy : [y1, y2, y3, y4].all isDig = true) (hw : [w1c, w2c].all isDig = true)
    (hdc : isDig dc = true) :
    p.parse_isodate_uncommon [y1, y2, y3, y4, 'W', w1c, w2c, '-', dc] =
      .error (.valueError "Inconsistent use of dash separator") := by
  have h1 := pyInt_digits (by simp) hy
  have h2 := pyInt_digits (by simp) hw
  have hy1 : isDig y1 = true := by simp at hy; exact hy.1
  have hne1 : y1 ≠ '-' := isDig_ne hy1 (by decide)
  simp [Isoparser.parse_isodate_uncommon, h1, h2, pyGet, hne1]

theorem parse_uncommon_weekDN {p : Isoparser} (y1 y2 y3 y4 w1c w2c dc : Char)
    (hy : [y1, y2, y3, y4].all isDig = true) (hw : [w1c, w2c].all isDig = true)
    (hdc : isDig dc = true) :
    p.parse_isodate_uncommon [y1, y2, y3, y4, '-', 'W', w1c, w2c, dc] =
      (Isoparser.calculate_weekdate ((digitsVal [y1, y2, y3, y4] : Nat) : Int)
        ((digitsVal [w1c, w2c] : Nat) : Int) ((digitsVal [dc] : Nat) : Int)).map
        (fun base => ((((base.year : Nat) : Int), ((base.month : Nat) : Int),
          ((base.day : Nat) : Int)), 9)) := by
  have h1 := pyInt_digits (by simp) hy
  have h2 := pyInt_digits (by simp) hw
  have h3 := pyInt_digits (by simp) (show [dc].all isDig = true by simp [hdc])
  have hy1 : isDig y1 = true := by simp at hy; exact hy.1
  have hne1 : y1 ≠ '-' := isDig_ne hy1 (by decide)
  have hnedc : dc ≠ '-' := isDig_ne hdc (by decide)
  simp [Isoparser.parse_isodate_uncommon, h1, h2, h3, pyGet, hne1, hnedc, except_bind_pure]
  rfl

theorem parse_uncommon_ddd {p : Isoparser} (m1 m2 d1 d2 : Char)
    (hm : [m1, m2].all isDig = true) (hd : [d1, d2].all isDig = true) :
    p.parse_isodate_uncommon ['-', '-', m1, m2, '-', d1, d2] =
      .ok ((p.noYearDefault ((digitsVal [m1, m2] : Nat) : Int) ((digitsVal [d1, d2] : Nat) : Int),
        ((digitsVal [m1, m2] : Nat) : Int), ((digitsVal [d1, d2] : Nat) : Int)), 7) := by
  have h2 := pyInt_digits (by simp) hm
  have h3 := pyInt_digits (by simp) hd
  simp [Isoparser.parse_isodate_uncommon, h2, h3, pyGet]

theorem parse_uncommon_ddn {p : Isoparser} (m1 m2 d1 d2 : Char)
    (hm : [m1, m2].all isDig = true) (hd : [d1, d2].all isDig = true) :
    p.parse_isodate_uncommon ['-', '-', m1, m2, d1, d2] =
      .ok ((p.noYearDefault ((digitsVal [m1, m2] : Nat) : Int) ((digitsVal [d1, d2] : Nat) : Int),
        ((digitsVal [m1, m2] : Nat) : Int), ((digitsVal [d1, d2] : Nat) : Int)), 6) := by
  have h2 := pyInt_digits (by simp) hm
  have h3 := pyInt_digits (by simp) hd
  have hd1 : isDig d1 = true := by simp at hd; exact hd.1
  have hned : d1 ≠ '-' := isDig_ne hd1 (by decide)
  simp [Isoparser.parse_isodate_uncommon, h2, h3, pyGet, hned]

theorem parse_inner_of_common_err {p : Isoparser} {s : List Char} {msg : String}
    (h : Isoparser.parse_isodate_common s = .error (.valueError msg)) :
    p.parse_isodate_inner s = p.parse_isodate_uncommon s := by
  unfold Isoparser.parse_isodate_inner
  rw [h]

theorem parse_inner_of_common_ok {p : Isoparser} {s : List Char} {r : (Int × Int × Int) × Nat}
    (h : Isoparser.parse_isodate_common s = .ok r) :
    p.parse_isodate_inner s = .ok r := by
  unfold Isoparser.parse_isodate_inner
  rw [h]

/-! ## Parsing of rendered digit strings -/

theorem parse_common_dashed_render {y m d : Nat} (hy : y < 10000) (hm : m < 100) (hd : d < 100) :
    Isoparser.parse_isodate_common (render4 y ++ '-' :: (render2 m ++ '-' :: render2 d)) =
      .ok (((y : Int), (m : Int), (d : Int)), 10) := by
  have h := parse_common_dashed (digitChar (y / 100 / 10)) (digitChar (y / 100 % 10)) (digitChar (y % 100 / 10))
    (digitChar (y % 100 % 10))
    (digitChar (m / 10)) (digitChar (m % 10)) (digitChar (d / 10)) (digitChar (d % 10))
    (render4_all_isDig hy) (render2_all_isDig hm) (render2_all_isDig hd)
  have e4 : digitsVal [digitChar (y / 100 / 10), digitChar (y / 100 % 10),
      digitChar (y % 100 / 10), digitChar (y % 100 % 10)] = y := digitsVal_render4 hy
  have e2m : digitsVal [digitChar (m / 10), digitChar (m % 10)] = m := digitsVal_render2 hm
  have e2d : digitsVal [digitChar (d / 10), digitChar (d % 10)] = d := digitsVal_render2 hd
  rw [e4, e2m, e2d] at h
  exact h

theorem parse_common_undashed_render {y m d : Nat} (hy : y < 10000) (hm : m < 100)
    (hd : d < 100) :
    Isoparser.parse_isodate_common (render4 y ++ render2 m ++ render2 d) =
      .ok (((y : Int), (m : Int), (d : Int)), 8) := by
  have h := parse_common_undashed (digitChar (y / 100 / 10)) (digitChar (y / 100 % 10)) (digitChar (y % 100 / 10))
    (digitChar (y % 100 % 10))
    (digitChar (m / 10)) (digitChar (m % 10)) (digitChar (d / 10)) (digitChar (d % 10))
    (render4_all_isDig hy) (render2_all_isDig hm) (render2_all_isDig hd)
    (digitChar_isDig (by omega))
  have e4 : digitsVal [digitChar (y / 100 / 10), digitChar (y / 100 % 10),
      digitChar (y % 100 / 10), digitChar (y % 100 % 10)] = y := digitsVal_render4 hy
  have e2m : digitsVal [digitChar (m / 10), digitChar (m % 10)] = m := digitsVal_render2 hm
  have e2d : digitsVal [digitChar (d / 10), digitChar (d % 10)] = d := digitsVal_render2 hd
  rw [e4, e2m, e2d] at h
  exact h

theorem daysInMonth_le31 (y m : Nat) : daysInMonth y m ≤ 31 := by
  unfold daysInMonth
  split <;> first | omega | (split <;> omega)

/-- Claim C8: for every year in `[1, 9999]` and valid month/day, the dashed
and undashed fixed-width renderings both parse back to exactly that date. -/
theorem c8_date_roundtrip (p : Isoparser) (y m d : Nat) (h1 : 1 ≤ y) (h2 : y ≤ 9999)
    (h3 : 1 ≤ m) (h4 : m ≤ 12) (h5 : 1 ≤ d) (h6 : d ≤ daysInMonth y m) :
    p.parse_isodate (render4 y ++ '-' :: (render2 m ++ '-' :: render2 d)) = .ok ⟨y, m, d⟩ ∧
    p.parse_isodate (render4 y ++ render2 m ++ render2 d) = .ok ⟨y, m, d⟩ := by
  have hv : validDate y m d := ⟨h1, h2, h3, h4, h5, h6⟩
  have hd31 := daysInMonth_le31 y m
  have hmk := mkDate_nat hv
  constructor
  · have hc := parse_common_dashed_render (y := y) (m := m) (d := d) (by omega)
      (by omega) (by omega)
    unfold Isoparser.parse_isodate
    rw [parse_inner_of_common_ok hc, except_bind_ok]
    exact hmk
  · have hc := parse_common_undashed_render (y := y) (m := m) (d := d) (by omega)
      (by omega) (by omega)
    unfold Isoparser.parse_isodate
    rw [parse_inner_of_common_ok hc, except_bind_ok]
    exact hmk

theorem parse_common_weekDD_err_render {Y W D : Nat} (hY : Y < 10000) (hW : W < 100)
    (hD : D < 10) :
    Isoparser.parse_isodate_common (render4 Y ++ '-' :: 'W' :: (render2 W ++ '-' :: [digitChar D])) =
      .error (.valueError "invalid literal for int() with base 10") :=
  parse_common_weekDD_err (digitChar (Y / 100 / 10)) (digitChar (Y / 100 % 10)) (digitChar (Y % 100 / 10))
    (digitChar (Y % 100 % 10))
    (digitChar (W / 10)) (digitChar (W % 10)) (digitChar D)
    (render4_all_isDig hY) (digitChar_isDig (by omega))

theorem parse_common_weekDN_err_render {Y W D : Nat} (hY : Y < 10000) (hW : W < 100)
    (hD : D < 10) :
    Isoparser.parse_isodate_common (render4 Y ++ '-' :: 'W' :: (render2 W ++ [digitChar D])) =
      .error (.valueError "invalid literal for int() with base 10") :=
  parse_common_weekDN_err (digitChar (Y / 100 / 10)) (digitChar (Y / 100 % 10)) (digitChar (Y % 100 / 10))
    (digitChar (Y % 100 % 10))
    (digitChar (W / 10)) (digitChar (W % 10)) (digitChar D)
    (render4_all_isDig hY) (digitChar_isDig (by omega))

theorem parse_common_weekND_err_render {Y W D : Nat} (hY : Y < 10000) (hW : W < 100)
    (hD : D < 10) :
    Isoparser.parse_isodate_common (render4 Y ++ 'W' :: (render2 W ++ '-' :: [digitChar D])) =
      .error (.valueError "invalid literal for int() with base 10") :=
  parse_common_weekND_err (digitChar (Y / 100 / 10)) (digitChar (Y / 100 % 10)) (digitChar (Y % 100 / 10))
    (digitChar (Y % 100 % 10))
    (digitChar (W / 10)) (digitChar (W % 10)) (digitChar D)
    (render4_all_isDig hY) (digitChar_isDig (by omega))

theorem parse_uncommon_weekDD_render {p : Isoparser} {Y W D : Nat} (hY : Y < 10000)
    (hW : W < 100) (hD : D < 10) :
    p.parse_isodate_uncommon (render4 Y ++ '-' :: 'W' :: (render2 W ++ '-' :: [digitChar D])) =
      (Isoparser.calculate_weekdate (Y : Int) (W : Int) (D : Int)).map
        (fun base => ((((base.year : Nat) : Int), ((base.month : Nat) : Int),
          ((base.day : Nat) : Int)), 10)) := by
  have h := parse_uncommon_weekDD (p := p) (digitChar (Y / 100 / 10)) (digitChar (Y / 100 % 10)) (digitChar (Y % 100 / 10))
    (digitChar (Y % 100 % 10))
    (digitChar (W / 10)) (digitChar (W % 10)) (digitChar D)
    (render4_all_isDig hY) (render2_all_isDig hW) (digitChar_isDig hD)
  have e4 : digitsVal [digitChar (Y / 100 / 10), digitChar (Y / 100 % 10),
      digitChar (Y % 100 / 10), digitChar (Y % 100 % 10)] = Y := digitsVal_render4 hY
  have e2 : digitsVal [digitChar (W / 10), digitChar (W % 10)] = W := digitsVal_render2 hW
  have e1 : digitsVal [digitChar D] = D := digitsVal_digitChar hD
  rw [e4, e2, e1] at h
  exact h

theorem parse_uncommon_weekDN_render {p : Isoparser} {Y W D : Nat} (hY : Y < 10000)
    (hW : W < 100) (hD : D < 10) :
    p.parse_isodate_uncommon (render4 Y ++ '-' :: 'W' :: (render2 W ++ [digitChar D])) =
      (Isoparser.calculate_weekdate (Y : Int) (W : Int) (D : Int)).map
        (fun base => ((((base.year : Nat) : Int), ((base.month : Nat) : Int),
          ((base.day : Nat) : Int)), 9)) := by
  have h := parse_uncommon_weekDN (p := p) (digitChar (Y / 100 / 10)) (digitChar (Y / 100 % 10)) (digitChar (Y % 100 / 10))
    (digitChar (Y % 100 % 10))
    (digitChar (W / 10)) (digitChar (W % 10)) (digitChar D)
    (render4_all_isDig hY) (render2_all_isDig hW) (digitChar_isDig hD)
  have e4 : digitsVal [digitChar (Y / 100 / 10), digitChar (Y / 100 % 10),
      digitChar (Y % 100 / 10), digitChar (Y % 100 % 10)] = Y := digitsVal_render4 hY
  have e2 : digitsVal [digitChar (W / 10), digitChar (W % 10)] = W := digitsVal_render2 hW
  have e1 : digitsVal [digitChar D] = D := digitsVal_digitChar hD
  rw [e4, e2, e1] at h
  exact h

theorem parse_uncommon_weekND_render {p : Isoparser} {Y W D : Nat} (hY : Y < 10000)
    (hW : W < 100) (hD : D < 10) :
    p.parse_isodate_uncommon (render4 Y ++ 'W' :: (render2 W ++ '-' :: [digitChar D])) =
      .error (.valueError "Inconsistent use of dash separator") :=
  parse_uncommon_weekND (p := p) (digitChar (Y / 100 / 10)) (digitChar (Y / 100 % 10)) (digitChar (Y % 100 / 10))
    (digitChar (Y % 100 % 10))
    (digitChar (W / 10)) (digitChar (W % 10)) (digitChar D)
    (render4_all_isDig hY) (render2_all_isDig hW) (digitChar_isDig hD)

/-- Claim C4: for every valid calendar date, formatting its ISO calendar
triple as `"YYYY-Www-D"` and parsing it with the Date Parser yields the
same date again; equivalently, `_calculate_weekdate` inverts the standard
ISO calendar-week decomposition. -/
theorem c4_weekdate_roundtrip (p : Isoparser) (y m d : Nat) (hv : validDate y m d) :
    p.parse_isodate (fmtWeekDate (isocalendar y m d)) = .ok ⟨y, m, d⟩ ∧
    Isoparser.calculate_weekdate ((isocalendar y m d).1 : Int) ((isocalendar y m d).2.1 : Int)
      ((isocalendar y m d).2.2 : Int) = .ok ⟨y, m, d⟩ := by
  obtain ⟨s1, s2, s3, s4, s5, s6, s7, s8, s9⟩ := isocalendar_spec hv
  have hcw := calculate_weekdate_isocal hv
  refine ⟨?_, hcw⟩
  have hfmt : fmtWeekDate (isocalendar y m d) =
      render4 (isocalendar y m d).1 ++ '-' :: 'W' ::
        (render2 (isocalendar y m d).2.1 ++ '-' :: [digitChar (isocalendar y m d).2.2]) := rfl
  rw [hfmt]
  unfold Isoparser.parse_isodate
  rw [parse_inner_of_common_err (parse_common_weekDD_err_render (by omega) (by omega) (by omega))]
  rw [parse_uncommon_weekDD_render (by omega) (by omega) (by omega)]
  rw [hcw]
  show Bind.bind (Except.ok (((y : Int), (m : Int), (d : Int)), 10)) _ = _
  rw [except_bind_ok]
  exact mkDate_nat hv

/-! ## The year-less form and its leap-year fallback -/

theorem parse_common_dashdash7_err_render {m d : Nat} (hm : m < 100) (hd : d < 100) :
    Isoparser.parse_isodate_common ('-' :: '-' :: (render2 m ++ '-' :: render2 d)) =
      .error (.valueError "invalid literal for int() with base 10") :=
  parse_common_dashdash7_err (digitChar (m / 10)) (digitChar (m % 10))
    (digitChar (d / 10)) (digitChar (d % 10))
    (render2_all_isDig hm) (render2_all_isDig hd)

theorem parse_common_dashdash6_err_render {m d : Nat} (hm : m < 100) (hd : d < 100) :
    Isoparser.parse_isodate_common ('-' :: '-' :: (render2 m ++ render2 d)) =
      .error (.valueError "invalid literal for int() with base 10") :=
  parse_common_dashdash6_err (digitChar (m / 10)) (digitChar (m % 10))
    (digitChar (d / 10)) (digitChar (d % 10))
    (render2_all_isDig hm) (render2_all_isDig hd)

theorem parse_uncommon_ddd_render {p : Isoparser} {m d : Nat} (hm : m < 100) (hd : d < 100) :
    p.parse_isodate_uncommon ('-' :: '-' :: (render2 m ++ '-' :: render2 d)) =
      .ok ((p.noYearDefault (m : Int) (d : Int), (m : Int), (d : Int)), 7) := by
  have h := parse_uncommon_ddd (p := p) (digitChar (m / 10)) (digitChar (m % 10))
    (digitChar (d / 10)) (digitChar (d % 10))
    (render2_all_isDig hm) (render2_all_isDig hd)
  have e2m : digitsVal [digitChar (m / 10), digitChar (m % 10)] = m := digitsVal_render2 hm
  have e2d : digitsVal [digitChar (d / 10), digitChar (d % 10)] = d := digitsVal_render2 hd
  rw [e2m, e2d] at h
  exact h

theorem parse_uncommon_ddn_render {p : Isoparser} {m d : Nat} (hm : m < 100) (hd : d < 100) :
    p.parse_isodate_uncommon ('-' :: '-' :: (render2 m ++ render2 d)) =
      .ok ((p.noYearDefault (m : Int) (d : Int), (m : Int), (d : Int)), 6) := by
  have h := parse_uncommon_ddn (p := p) (digitChar (m / 10)) (digitChar (m % 10))
    (digitChar (d / 10)) (digitChar (d % 10))
    (render2_all_isDig hm) (render2_all_isDig hd)
  have e2m : digitsVal [digitChar (m / 10), digitChar (m % 10)] = m := digitsVal_render2 hm
  have e2d : digitsVal [digitChar (d / 10), digitChar (d % 10)] = d := digitsVal_render2 hd
  rw [e2m, e2d] at h
  exact h

theorem noYearDefault_cast (p : Isoparser) {m d : Nat} :
    p.noYearDefault (m : Int) (d : Int) =
      if m = 2 ∧ d = 29 then (leapAdjust p.default_year : Int)
      else (p.default_year : Int) := by
  unfold Isoparser.noYearDefault leapAdjust
  by_cases hmd : m = 2 ∧ d = 29
  · rw [if_pos hmd, if_pos (show (m : Int) = 2 ∧ (d : Int) = 29 by omega)]
    by_cases hc : ((p.default_year : Int) - (p.default_year : Int) % 4) % 400 ≠ 0 ∧
        ((p.default_year : Int) - (p.default_year : Int) % 4) % 100 = 0
    · rw [if_pos hc]
      have hc2 : (p.default_year - p.default_year % 4) % 400 ≠ 0 ∧
          (p.default_year - p.default_year % 4) % 100 = 0 := by
        constructor
        · omega
        · omega
      rw [if_pos hc2]
      omega
    · rw [if_neg hc]
      have hc2 : ¬((p.default_year - p.default_year % 4) % 400 ≠ 0 ∧
          (p.default_year - p.default_year % 4) % 100 = 0) := by omega
      rw [if_neg hc2]
      omega
  · rw [if_neg hmd, if_neg (show ¬((m : Int) = 2 ∧ (d : Int) = 29) by omega)]

theorem leapAdjust_facts {dy : Nat} (h4 : 4 ≤ dy) :
    4 ≤ leapAdjust dy ∧ leapAdjust dy ≤ dy ∧ isLeapYear (leapAdjust dy) = true ∧
    ∀ z : Nat, leapAdjust dy < z → z ≤ dy → isLeapYear z = false := by
  unfold leapAdjust
  by_cases hc : (dy - dy % 4) % 400 ≠ 0 ∧ (dy - dy % 4) % 100 = 0
  · rw [if_pos hc]
    refine ⟨by omega, by omega, ?_, ?_⟩
    · rw [isLeapYear_iff]
      omega
    · intro z hz1 hz2
      rw [← Bool.not_eq_true, isLeapYear_iff]
      omega
  · rw [if_neg hc]
    refine ⟨by omega, by omega, ?_, ?_⟩
    · rw [isLeapYear_iff]
      omega
    · intro z hz1 hz2
      rw [← Bool.not_eq_true, isLeapYear_iff]
      omega

/-- Claim C5: parsing the year-less `--MM-DD`/`--MMDD` forms substitutes the
configured default year, except that a February 29 gets the nearest leap
year at or before the default year, computed by the "subtract `year mod 4`;
then 4 more when divisible by 100 but not 400" rule. -/
theorem c5_noyear_leap_fallback (p : Isoparser) (h1 : 1 ≤ p.default_year)
    (h2 : p.default_year ≤ 9999) :
    (4 ≤ p.default_year →
      p.parse_isodate ('-' :: '-' :: (render2 2 ++ '-' :: render2 29)) =
          .ok ⟨leapAdjust p.default_year, 2, 29⟩ ∧
      p.parse_isodate ('-' :: '-' :: (render2 2 ++ render2 29)) =
          .ok ⟨leapAdjust p.default_year, 2, 29⟩ ∧
      isLeapYear (leapAdjust p.default_year) = true ∧
      leapAdjust p.default_year ≤ p.default_year ∧
      (∀ z : Nat, leapAdjust p.default_year < z → z ≤ p.default_year →
        isLeapYear z = false)) ∧
    (∀ m d : Nat, m ≤ 99 → d ≤ 99 → ¬(m = 2 ∧ d = 29) →
      p.parse_isodate ('-' :: '-' :: (render2 m ++ '-' :: render2 d)) =
          mkDate (p.default_year : Int) (m : Int) (d : Int) ∧
      p.parse_isodate ('-' :: '-' :: (render2 m ++ render2 d)) =
          mkDate (p.default_year : Int) (m : Int) (d : Int)) := by
  constructor
  · intro h4
    obtain ⟨la1, la2, la3, la4⟩ := leapAdjust_facts h4
    have hval : validDate (leapAdjust p.default_year) 2 29 := by
      refine ⟨by omega, by omega, by omega, by omega, by omega, ?_⟩
      unfold daysInMonth
      rw [la3]
      simp
    have hyd : p.noYearDefault ((2 : Nat) : Int) ((29 : Nat) : Int) =
        (leapAdjust p.default_year : Int) := by
      rw [noYearDefault_cast]
      simp
    have hmk : mkDate (leapAdjust p.default_year : Int) ((2 : Nat) : Int) ((29 : Nat) : Int) =
        .ok ⟨leapAdjust p.default_year, 2, 29⟩ := mkDate_nat hval
    refine ⟨?_, ?_, la3, la2, la4⟩
    · unfold Isoparser.parse_isodate
      rw [parse_inner_of_common_err (parse_common_dashdash7_err_render (by omega) (by omega))]
      rw [parse_uncommon_ddd_render (by omega) (by omega), except_bind_ok, hyd]
      exact hmk
    · unfold Isoparser.parse_isodate
      rw [parse_inner_of_common_err (parse_common_dashdash6_err_render (by omega) (by omega))]
      rw [parse_uncommon_ddn_render (by omega) (by omega), except_bind_ok, hyd]
      exact hmk
  · intro m d hm hd hmd
    have hyd : p.noYearDefault ((m : Nat) : Int) ((d : Nat) : Int) =
        (p.default_year : Int) := by
      rw [noYearDefault_cast, if_neg hmd]
    constructor
    · unfold Isoparser.parse_isodate
      rw [parse_inner_of_common_err (parse_common_dashdash7_err_render (by omega) (by omega))]
      rw [parse_uncommon_ddd_render (by omega) (by omega), except_bind_ok, hyd]
    · unfold Isoparser.parse_isodate
      rw [parse_inner_of_common_err (parse_common_dashdash6_err_render (by omega) (by omega))]
      rw [parse_uncommon_ddn_render (by omega) (by omega), except_bind_ok, hyd]

/-- Claim C2 counterexample: the mixed form with a dash after the year but
none before the day digit, `"0002-W051"`, is accepted (yielding January 28
of year 2) even though the claim says both mixed forms are rejected. -/
theorem c2_counterexample :
    Isoparser.parse_isodate ⟨'T', 2024⟩ ("0002-W051".toList) = .ok ⟨2, 1, 28⟩ := by decide

/-- Claim C2 amended: when the day segment is present, a dash before the
day requires the dash after the year (that mixed form raises the
inconsistent-separator error), while a dashed year with an undashed day
digit is accepted and parses exactly like the fully dashed form. -/
theorem c2_week_separator (p : Isoparser) (Y W D : Nat) (hY1 : 1 ≤ Y) (hY : Y ≤ 9999)
    (hW1 : 1 ≤ W) (hW : W ≤ 53) (hD1 : 1 ≤ D) (hD : D ≤ 7) :
    p.parse_isodate (render4 Y ++ 'W' :: (render2 W ++ '-' :: [digitChar D])) =
      .error (.valueError "Inconsistent use of dash separator") ∧
    p.parse_isodate (render4 Y ++ '-' :: 'W' :: (render2 W ++ [digitChar D])) =
      p.parse_isodate (render4 Y ++ '-' :: 'W' :: (render2 W ++ '-' :: [digitChar D])) := by
  constructor
  · unfold Isoparser.parse_isodate
    rw [parse_inner_of_common_err (parse_common_weekND_err_render (by omega) (by omega)
      (by omega))]
    rw [parse_uncommon_weekND_render (by omega) (by omega) (by omega)]
    rfl
  · unfold Isoparser.parse_isodate
    rw [parse_inner_of_common_err (parse_common_weekDN_err_render (by omega) (by omega)
      (by omega))]
    rw [parse_inner_of_common_err (parse_common_weekDD_err_render (by omega) (by omega)
      (by omega))]
    rw [parse_uncommon_weekDN_render (by omega) (by omega) (by omega)]
    rw [parse_uncommon_weekDD_render (by omega) (by omega) (by omega)]
    cases hcw : Isoparser.calculate_weekdate (Y : Int) (W : Int) (D : Int) with
    | error e => rfl
    | ok base => rfl

/-- Claim C1 (code bug): `parse_isodate` silently ignores the trailing
character of `"2014-04-11x"` and returns April 11, 2014 instead of
failing on unconsumed input. -/
theorem c1_trailing_ignored :
    Isoparser.parse_isodate ⟨'T', 2024⟩ ("2014-04-11x".toList) = .ok ⟨2014, 4, 11⟩ := by decide

/-- Claim C3 (code bug): `parse_isodate` and `isoparse` applied to `"123"`
raise an uncaught `IndexError` (out-of-range string indexing at
`dt_str[4]`), not a `ValueError` parse failure. -/
theorem c3_indexerror_escapes :
    Isoparser.parse_isodate ⟨'T', 2024⟩ ("123".toList) = .error .indexError ∧
    Isoparser.isoparse ⟨'T', 2024⟩ ("123".toList) false = .error .indexError := by decide

theorem c8_date_roundtrip_witness :
    Isoparser.parse_isodate ⟨'T', 2024⟩ (render4 2014 ++ '-' :: (render2 4 ++ '-' :: render2 11)) =
      .ok ⟨2014, 4, 11⟩ ∧
    Isoparser.parse_isodate ⟨'T', 2024⟩ (render4 2014 ++ render2 4 ++ render2 11) =
      .ok ⟨2014, 4, 11⟩ :=
  c8_date_roundtrip ⟨'T', 2024⟩ 2014 4 11 (by decide) (by decide) (by decide) (by decide)
    (by decide) (by decide)

theorem c4_weekdate_roundtrip_witness :
    Isoparser.parse_isodate ⟨'T', 2024⟩ (fmtWeekDate (isocalendar 2 1 28)) = .ok ⟨2, 1, 28⟩ ∧
    Isoparser.calculate_weekdate ((isocalendar 2 1 28).1 : Int) ((isocalendar 2 1 28).2.1 : Int)
      ((isocalendar 2 1 28).2.2 : Int) = .ok ⟨2, 1, 28⟩ :=
  c4_weekdate_roundtrip ⟨'T', 2024⟩ 2 1 28 (by decide)

theorem c5_noyear_leap_fallback_witness :
    Isoparser.parse_isodate ⟨'T', 2004⟩ ('-' :: '-' :: (render2 2 ++ '-' :: render2 29)) =
      .ok ⟨2004, 2, 29⟩ ∧
    Isoparser.parse_isodate ⟨'T', 2003⟩ ('-' :: '-' :: (render2 2 ++ '-' :: render2 29)) =
      .ok ⟨2000, 2, 29⟩ ∧
    Isoparser.parse_isodate ⟨'T', 2024⟩ ('-' :: '-' :: (render2 3 ++ '-' :: render2 15)) =
      .ok ⟨2024, 3, 15⟩ := by
  refine ⟨?_, ?_, ?_⟩
  · have h := (c5_noyear_leap_fallback ⟨'T', 2004⟩ (by decide) (by decide)).1 (by decide)
    have he : leapAdjust 2004 = 2004 := by decide
    rw [he] at h
    exact h.1
  · have h := (c5_noyear_leap_fallback ⟨'T', 2003⟩ (by decide) (by decide)).1 (by decide)
    have he : leapAdjust 2003 = 2000 := by decide
    rw [he] at h
    exact h.1
  · have h := (c5_noyear_leap_fallback ⟨'T', 2024⟩ (by decide) (by decide)).2 3 15
      (by decide) (by decide) (by decide)
    have hmk : mkDate ((2024 : Nat) : Int) ((3 : Nat) : Int) ((15 : Nat) : Int) =
        .ok ⟨2024, 3, 15⟩ := by decide
    rw [hmk] at h
    exact h.1

theorem c2_week_separator_witness :
    Isoparser.parse_isodate ⟨'T', 2024⟩ (render4 2 ++ 'W' :: (render2 5 ++ '-' :: [digitChar 1])) =
      .error (.valueError "Inconsistent use of dash separator") ∧
    Isoparser.parse_isodate ⟨'T', 2024⟩ (render4 2 ++ '-' :: 'W' :: (render2 5 ++ [digitChar 1])) =
      Isoparser.parse_isodate ⟨'T', 2024⟩
        (render4 2 ++ '-' :: 'W' :: (render2 5 ++ '-' :: [digitChar 1])) :=
  c2_week_separator ⟨'T', 2024⟩ 2 5 1 (by decide) (by decide) (by decide) (by decide)
    (by decide) (by decide)

/-! ## Time zone offset parsing -/

@[simp] theorem except_pure {ε α : Type} (a : α) : (pure a : Except ε α) = Except.ok a := rfl

/-- Claim C7: on a well-formed signed offset token, `parse_tzstr` returns
UTC when `zero_as_utc` is set and the parsed hours and minutes are both 0,
and otherwise validates `minutes ≤ 59` and `hours ≤ 23` before returning a
fixed offset of `sign * (hours*60 + minutes)` minutes. -/
theorem c7_tzstr (tzstr : List Char) (z : Bool) (mult hours minutes : Int)
    (hlen : tzstr.length = 3 ∨ tzstr.length = 5 ∨ tzstr.length = 6)
    (hsign : (pyGet tzstr 0 = .ok '-' ∧ mult = -1) ∨ (pyGet tzstr 0 = .ok '+' ∧ mult = 1))
    (hh : pyInt ((tzstr.drop 1).take 2) = .ok hours)
    (hmins : (tzstr.length = 3 ∧ minutes = 0) ∨
      (tzstr.length ≠ 3 ∧ ∃ c3, pyGet tzstr 3 = .ok c3 ∧
        pyInt (tzstr.drop (if c3 = ':' then 4 else 3)) = .ok minutes))
    (hh0 : 0 ≤ hours) (hm0 : 0 ≤ minutes) :
    Isoparser.parse_tzstr tzstr z =
      (if z = true ∧ hours = 0 ∧ minutes = 0 then .ok .utc
       else if 59 < minutes then .error (.valueError "Invalid minutes in time zone offset")
       else if 23 < hours then .error (.valueError "Invalid hours in time zone offset")
       else .ok (.offset (mult * (hours * 60 + minutes)))) := by
  have hzne : tzstr ≠ ['Z'] := by
    intro he
    subst he
    simp at hlen
  unfold Isoparser.parse_tzstr
  rw [if_neg hzne, if_neg (not_not_intro hlen)]
  rcases hsign with ⟨hg, hm1⟩ | ⟨hg, hm1⟩ <;> subst hm1 <;>
    rw [hg, except_bind_ok] <;>
    simp only [reduceIte, reduceCtorEq, except_pure, except_bind_ok,
      show (('-' : Char) = '-') = True by simp, show (('+' : Char) = '-') = False by simp,
      show (('+' : Char) = '+') = True by simp, if_true, if_false] <;>
    rw [hh, except_bind_ok] <;>
    rcases hmins with ⟨hl3, hmz⟩ | ⟨hl3, c3, hg3, hm3⟩
  · subst hmz
    rw [if_pos hl3]
    simp
  · rw [if_neg hl3, hg3, except_bind_ok, hm3, except_bind_ok]
  · subst hmz
    rw [if_pos hl3]
    simp
  · rw [if_neg hl3, hg3, except_bind_ok, hm3, except_bind_ok]

theorem c7_tzstr_witness :
    Isoparser.parse_tzstr ("+00:00".toList) true = .ok .utc ∧
    Isoparser.parse_tzstr ("+00:00".toList) false = .ok (.offset 0) ∧
    Tz.offset 0 ≠ Tz.utc := by
  have h1 := c7_tzstr ("+00:00".toList) true 1 0 0 (by decide) (.inr ⟨by decide, rfl⟩)
    (by decide) (.inr ⟨by decide, ⟨':', by decide, by decide⟩⟩) (by decide) (by decide)
  have h2 := c7_tzstr ("+00:00".toList) false 1 0 0 (by decide) (.inr ⟨by decide, rfl⟩)
    (by decide) (.inr ⟨by decide, ⟨':', by decide, by decide⟩⟩) (by decide) (by decide)
  refine ⟨by simpa using h1, by simpa using h2, by decide⟩

/-! ## The midnight rule -/

/-- Claim C6: whenever the time scan parses hour 24, the parse fails if any
of minute/second/microsecond is nonzero, and otherwise succeeds with the
hour normalized to 0; the date of a combined parse is not advanced. -/
theorem c6_midnight (s : List Char) (c : TimeComps)
    (hscan : Isoparser.isotimeScan s = .ok c) (h24 : c.hour = 24) :
    ((¬(c.minute = 0 ∧ c.second = 0 ∧ c.microsecond = 0)) →
      Isoparser.parse_isotime s = .error (.valueError "Hour may only be 24 at 24:00:00.000")) ∧
    ((c.minute = 0 ∧ c.second = 0 ∧ c.microsecond = 0) →
      Isoparser.parse_isotime s = .ok ⟨0, 0, 0, 0, c.tzinfo⟩) ∧
    Isoparser.isoparse ⟨'T', 2024⟩ ("2014-04-11T24:00".toList) false =
      .ok ⟨2014, 4, 11, 0, 0, 0, 0, none⟩ := by
  refine ⟨?_, ?_, by decide⟩
  · intro hnz
    have hcomp : Isoparser.parse_isotime_components s =
        .error (.valueError "Hour may only be 24 at 24:00:00.000") := by
      unfold Isoparser.parse_isotime_components
      rw [hscan, except_bind_ok, if_pos h24, if_pos hnz]
    unfold Isoparser.parse_isotime
    rw [hcomp]
    rfl
  · intro hz
    have hcomp : Isoparser.parse_isotime_components s = .ok { c with hour := 0 } := by
      unfold Isoparser.parse_isotime_components
      rw [hscan, except_bind_ok, if_pos h24, if_neg (not_not_intro hz)]
      rfl
    unfold Isoparser.parse_isotime
    rw [hcomp, except_bind_ok]
    obtain ⟨hz1, hz2, hz3⟩ := hz
    have hceq : ({ c with hour := 0 } : TimeComps) = ⟨0, 0, 0, 0, c.tzinfo⟩ := by
      cases c
      simp_all
    rw [hceq]
    rfl

theorem c6_midnight_witness :
    Isoparser.parse_isotime ("24:30:00".toList) =
      .error (.valueError "Hour may only be 24 at 24:00:00.000") ∧
    Isoparser.parse_isotime ("24:00:00".toList) = .ok ⟨0, 0, 0, 0, none⟩ := by
  constructor
  · exact (c6_midnight ("24:30:00".toList) ⟨24, 30, 0, 0, none⟩ (by decide) (by decide)).1
      (by decide)
  · exact (c6_midnight ("24:00:00".toList) ⟨24, 0, 0, 0, none⟩ (by decide) (by decide)).2.1
      (by decide)

/-! ## Fractional seconds -/

/-- Claim C9: at the microsecond step of the time scan, a `.` after the
seconds field makes the following 1-6 digits the fractional-second string
and the microsecond component is its value scaled by `10^(6 - n)`;
a non-`.` (non-separator) character there leaves the microsecond 0. -/
theorem c9_fractional_seconds (h1 h2 m1 m2 s1 s2 : Char)
    (hh : [h1, h2].all isDig = true) (hm : [m1, m2].all isDig = true)
    (hs : [s1, s2].all isDig = true) :
    (∀ ds : List Char, ds.all isDig = true → 1 ≤ ds.length → ds.length ≤ 6 →
      Isoparser.isotimeScan (h1 :: h2 :: ':' :: m1 :: m2 :: ':' :: s1 :: s2 :: '.' :: ds) =
        .ok ⟨(digitsVal [h1, h2] : Int), (digitsVal [m1, m2] : Int), (digitsVal [s1, s2] : Int),
          (digitsVal ds : Int) * (10 : Int) ^ (6 - ds.length), none⟩ ∧
      Isoparser.isotimeScan (h1 :: h2 :: m1 :: m2 :: s1 :: s2 :: '.' :: ds) =
        .ok ⟨(digitsVal [h1, h2] : Int), (digitsVal [m1, m2] : Int), (digitsVal [s1, s2] : Int),
          (digitsVal ds : Int) * (10 : Int) ^ (6 - ds.length), none⟩) ∧
    (∀ (c : Char) (rest : List Char) (comps : TimeComps), c ≠ '.' → c ≠ ':' →
      Isoparser.isotimeScan (h1 :: h2 :: ':' :: m1 :: m2 :: ':' :: s1 :: s2 :: c :: rest) =
        .ok comps →
      comps.microsecond = 0) ∧
    Isoparser.isotimeScan [h1, h2, ':', m1, m2, ':', s1, s2] =
      .ok ⟨(digitsVal [h1, h2] : Int), (digitsVal [m1, m2] : Int), (digitsVal [s1, s2] : Int),
        0, none⟩ := by
  have ph := pyInt_digits (by simp) hh
  have pm := pyInt_digits (by simp) hm
  have ps := pyInt_digits (by simp) hs
  have hd1 : isDig h1 = true := by simp at hh; exact hh.1
  have ne1 : h1 ≠ '-' := isDig_ne hd1 (by decide)
  have ne2 : h1 ≠ '+' := isDig_ne hd1 (by decide)
  have ne3 : h1 ≠ 'Z' := isDig_ne hd1 (by decide)
  have hdm : isDig m1 = true := by simp at hm; exact hm.1
  have nem1 : m1 ≠ '-' := isDig_ne hdm (by decide)
  have nem2 : m1 ≠ '+' := isDig_ne hdm (by decide)
  have nem3 : m1 ≠ 'Z' := isDig_ne hdm (by decide)
  have nemc : m1 ≠ ':' := isDig_ne hdm (by decide)
  have hdv : isDig s1 = true := by simp at hs; exact hs.1
  have nes1 : s1 ≠ '-' := isDig_ne hdv (by decide)
  have nes2 : s1 ≠ '+' := isDig_ne hdv (by decide)
  have nes3 : s1 ≠ 'Z' := isDig_ne hdv (by decide)
  refine ⟨?_, ?_, ?_⟩
  · intro ds hds hL1 hL6
    have pds := pyInt_digits (by intro he; rw [he] at hL1; simp at hL1) hds
    have htake : ds.take 6 = ds := List.take_of_length_le hL6
    have htw : ds.takeWhile
        (fun c => !decide (c = '-') && (!decide (c = '+') && !decide (c = 'Z'))) = ds := by
      apply takeWhile_eq_self_of_all
      intro x hx
      have hxd : isDig x = true := by
        have := List.all_eq_true.mp hds x hx
        simpa using this
      simp [isDig_ne hxd (by decide : ('-' : Char).toNat < 48 ∨ 57 < ('-' : Char).toNat),
        isDig_ne hxd (by decide : ('+' : Char).toNat < 48 ∨ 57 < ('+' : Char).toNat),
        isDig_ne hxd (by decide : ('Z' : Char).toNat < 48 ∨ 57 < ('Z' : Char).toNat)]
    constructor
    · simp +arith [Isoparser.isotimeScan, Isoparser.isotimeGo, pyGet, listGet?, ph, pm, ps,
        pds, ne1, ne2, ne3, nem1, nem2, nem3, nes1, nes2, nes3, htake, htw,
        TimeComps.setComp]
    · simp +arith [Isoparser.isotimeScan, Isoparser.isotimeGo, pyGet, listGet?, ph, pm, ps,
        pds, ne1, ne2, ne3, nem1, nem2, nem3, nes1, nes2, nes3, nemc, htake, htw,
        TimeComps.setComp]
  · intro c rest comps hc1 hc2 hscan
    by_cases hctz : c = '-' ∨ c = '+' ∨ c = 'Z'
    · cases htz : Isoparser.parse_tzstr (c :: rest) true with
      | error e =>
        simp +arith [Isoparser.isotimeScan, Isoparser.isotimeGo, pyGet, listGet?, ph, pm, ps,
          ne1, ne2, ne3, nem1, nem2, nem3, nes1, nes2, nes3, hc2, hctz, htz,
          TimeComps.setComp] at hscan
      | ok tzv =>
        simp +arith [Isoparser.isotimeScan, Isoparser.isotimeGo, pyGet, listGet?, ph, pm, ps,
          ne1, ne2, ne3, nem1, nem2, nem3, nes1, nes2, nes3, hc2, hctz, htz,
          TimeComps.setComp] at hscan
        rw [← hscan]
    · simp +arith [Isoparser.isotimeScan, Isoparser.isotimeGo, pyGet, listGet?, ph, pm, ps,
        ne1, ne2, ne3, nem1, nem2, nem3, nes1, nes2, nes3, hc1, hc2, hctz,
        TimeComps.setComp] at hscan
  · simp [Isoparser.isotimeScan, Isoparser.isotimeGo, pyGet, listGet?, ph, pm, ps,
      ne1, ne2, ne3, nem1, nem2, nem3, nes1, nes2, nes3, TimeComps.setComp]

theorem c9_fractional_seconds_witness :
    Isoparser.isotimeScan ("10:49:41.123".toList) = .ok ⟨10, 49, 41, 123000, none⟩ ∧
    Isoparser.isotimeScan ("10:49:41".toList) = .ok ⟨10, 49, 41, 0, none⟩ := by
  have h := c9_fractional_seconds '1' '0' '4' '9' '4' '1' (by decide) (by decide) (by decide)
  exact ⟨(h.1 ['1', '2', '3'] (by decide) (by decide) (by decide)).1, h.2.2⟩

/-! ## Week 53 in 52-week ISO years -/

/-- Claim C10: the Week-Date Calculator accepts week 53 even for an ISO
year with only 52 weeks (one whose week-1 Mondays are 364 days apart):
the call does not fail, and the resulting calendar date lies in week 1 of
the following ISO year, on the requested weekday. -/
theorem c10_week53_rollover (y d : Nat) (hy1 : 1 ≤ y) (hy2 : y + 1 ≤ 9999)
    (hd1 : 1 ≤ d) (hd7 : d ≤ 7)
    (h52 : isoweek1monday (y + 1) = isoweek1monday y + 364) :
    ∃ D : Date, Isoparser.calculate_weekdate (y : Int) ((53 : Nat) : Int) (d : Int) = .ok D ∧
      validDate D.year D.month D.day ∧
      isocalendar D.year D.month D.day = (y + 1, 1, d) := by
  have hwfy := isoweek1monday_facts hy1
  have hwfn := isoweek1monday_facts (show 1 ≤ y + 1 by omega)
  have hgapn := isoweek1monday_gap (show 1 ≤ y + 1 by omega)
  have hmono := daysBeforeYear_mono (show y + 1 + 1 ≤ 10000 by omega)
  have hsuccn := daysBeforeYear_succ (show 1 ≤ y + 1 by omega)
  have hlbn := daysInYear_lb (y + 1)
  have h10k : daysBeforeYear 10000 = 3652059 := by decide
  have hmxv : maxOrdinal = 3652059 := rfl
  have hrange : isoweek1monday y + (53 - 1) * 7 + (d - 1) ≤ maxOrdinal := by omega
  have hcw := calculate_weekdate_ok hy1 (by omega) (by omega) (by omega) hd1 hd7 hrange
  set r := isoweek1monday y + (53 - 1) * 7 + (d - 1) with hr
  have hrr : 1 ≤ r ∧ r ≤ maxOrdinal := ⟨by omega, hrange⟩
  obtain ⟨hval, hto, hlo, hhi⟩ := toOrdinal_fromOrdinal hrr.1 hrr.2
  refine ⟨fromOrdinal r, hcw, hval, ?_⟩
  have htoeq : toOrdinal (fromOrdinal r).year (fromOrdinal r).month (fromOrdinal r).day = r :=
    hto
  apply isocalendar_unique hval (by omega) (by omega) (by omega) hd1 hd7
  · rw [htoeq]
    omega
  · rw [htoeq]
    omega
  · rw [htoeq]
    omega

theorem c10_week53_rollover_witness :
    ∃ D : Date, Isoparser.calculate_weekdate ((2 : Nat) : Int) ((53 : Nat) : Int)
        ((1 : Nat) : Int) = .ok D ∧
      validDate D.year D.month D.day ∧
      isocalendar D.year D.month D.day = (2 + 1, 1, 1) :=
  c10_week53_rollover 2 1 (by decide) (by decide) (by decide) (by decide) (by decide)
